import Mathlib

/-!
Verification of the hardware-crash-team diagnostic engine.

This file is a shallow embedding of the Rust sources
`src/hardware-crash-team/src/{types.rs, scanner/mod.rs, analyzer/mod.rs,
remediation/mod.rs}` into Lean 4, together with theorems settling the
behavioural claims about kernel-argument plan generation, BAR decoding,
crash correlation and risk tiering.

Modelling conventions:
* Rust `String`/`&str` values are Lean `String`s; where the Rust code walks
  bytes of ASCII log text we walk the `List Char` underlying the string
  (`String.data`).  The one function whose behaviour depends on UTF-8 byte
  boundaries (`analyzer::truncate`) is additionally modelled at the byte
  level (`truncate` below, over `List Nat` byte values), where a `none`
  result models a Rust slicing panic.
* Machine integers are `Nat` with explicit wrap-around (`% 2 ^ 64` for
  `u64`, `% 256` for `u8`), the release-profile (wrapping) semantics of
  Rust arithmetic.
* `f64` correlation strengths are exact small-integer ratios
  (`count / max 1 total` with both operands tiny), modelled as `ℚ` via
  `mkRat`; at these magnitudes `f64` division and comparison are exact.
* Filesystem and subprocess effects are lifted into explicit inputs: the
  journal boots become a list of `(BootEntry, log text)` pairs, and sysfs
  reads in the planner become oracle functions passed as arguments.
* Rust `HashMap` iteration order is unspecified; the model fixes it to
  first-insertion order (an association list).  Claims about ordering of
  map-derived output are settled relative to this determinisation.
-/

/-! ## Character and string utilities (Rust `str` primitives) -/

/-- Rust `char::is_whitespace`, restricted to the ASCII range that can occur
in the sysfs and journal text this program reads. -/
def isRustWs (c : Char) : Bool :=
  c = ' ' || c = '\t' || c = '\n' || c = '\r' || c = '\x0b' || c = '\x0c'

/-- Accumulator pass for `str::split_whitespace`: `acc` holds the current
token reversed. -/
def splitWsAux : List Char → List Char → List (List Char)
  | [], acc => if acc.isEmpty then [] else [acc.reverse]
  | c :: cs, acc =>
    if isRustWs c then
      if acc.isEmpty then splitWsAux cs [] else acc.reverse :: splitWsAux cs []
    else
      splitWsAux cs (c :: acc)

/-- Rust `str::split_whitespace` (over the character list): whitespace-separated
tokens, empty tokens dropped. -/
def split_whitespace (s : List Char) : List (List Char) :=
  splitWsAux s []

/-- The function `startsWithCL pat l` is true when `pat` is a prefix of `l`
(Rust `str::starts_with`). -/
def startsWithCL : List Char → List Char → Bool
  | [], _ => true
  | _ :: _, [] => false
  | p :: ps, c :: cs => p = c && startsWithCL ps cs

/-- The function `containsSub l pat` is true when `pat` occurs as a contiguous sublist of
`l` (Rust `str::contains` with a string pattern). -/
def containsSub : List Char → List Char → Bool
  | l, pat =>
    startsWithCL pat l ||
      match l with
      | [] => false
      | _ :: cs => containsSub cs pat

/-- Rust `str::contains` on strings. -/
def strContains (s pat : String) : Bool :=
  containsSub s.data pat.data

/-- Byte-wise lexicographic comparison of strings (Rust `Ord` on `String`,
restricted to the code points in play).  `lexLe a b` is `a ≤ b`. -/
def lexLe : List Char → List Char → Bool
  | [], _ => true
  | _ :: _, [] => false
  | a :: as, b :: bs => if a < b then true else if b < a then false else lexLe as bs

/-- Rust `str::to_lowercase`, which is per-character for ASCII text. -/
def toLowerStr (s : String) : String :=
  String.mk (s.data.map Char.toLower)

/-- One segment-split of a character list at each `'\n'`, keeping empty
segments (helper for `str::lines`). -/
def splitOnNl : List Char → List (List Char)
  | [] => [[]]
  | '\n' :: rest => [] :: splitOnNl rest
  | c :: rest =>
    match splitOnNl rest with
    | seg :: segs => (c :: seg) :: segs
    | [] => [[c]]

/-- Strip one trailing `'\r'` (helper for `str::lines`). -/
def stripCr (l : List Char) : List Char :=
  if l.getLast? = some '\r' then l.dropLast else l

/-- Rust `str::lines`: split on `'\n'`, drop a final empty segment produced by
a trailing newline, and strip one `'\r'` from the end of each line. -/
def rustLines (s : String) : List (List Char) :=
  let segs := splitOnNl s.data
  let segs := if segs.getLast? = some [] then segs.dropLast else segs
  segs.map stripCr

/-- The function `splitOnceChar c l` splits `l` at the first occurrence of `c`
(Rust `str::split_once` with a `char` pattern). -/
def splitOnceChar (c : Char) : List Char → Option (List Char × List Char)
  | [] => none
  | x :: xs =>
    if x = c then some ([], xs)
    else
      match splitOnceChar c xs with
      | some (a, b) => some (x :: a, b)
      | none => none

/-- Rust `str::trim_start_matches("0x")`: remove every leading occurrence of
the two-character pattern `0x`. -/
def dropAll0x : List Char → List Char
  | '0' :: 'x' :: rest => dropAll0x rest
  | other => other

/-- Value of a single hexadecimal digit (both cases), as used by
`u64::from_str_radix(_, 16)`. -/
def hexVal (c : Char) : Option Nat :=
  if '0' ≤ c ∧ c ≤ '9' then some (c.toNat - '0'.toNat)
  else if 'a' ≤ c ∧ c ≤ 'f' then some (c.toNat - 'a'.toNat + 10)
  else if 'A' ≤ c ∧ c ≤ 'F' then some (c.toNat - 'A'.toNat + 10)
  else none

/-- Digit-accumulation loop of `u64::from_str_radix(_, 16)`. -/
def fromStrRadix16Go : List Char → Nat → Option Nat
  | [], acc => some acc
  | c :: cs, acc =>
    match hexVal c with
    | none => none
    | some v => fromStrRadix16Go cs (acc * 16 + v)

/-- Rust `u64::from_str_radix(s, 16)`: optional leading `'+'`, then one or more hex
digits; empty digit strings, invalid digits and values exceeding
`u64::MAX` are errors (`none`). -/
def fromStrRadix16 (s : List Char) : Option Nat :=
  let digits := if startsWithCL ['+'] s then s.drop 1 else s
  if digits.isEmpty then none
  else
    match fromStrRadix16Go digits 0 with
    | none => none
    | some v => if v < 2 ^ 64 then some v else none

/-! ## Data model (`types.rs`) -/

/-- Rust `types.rs::PowerState`. -/
inductive PowerState
  | D0
  | D1
  | D2
  | D3Hot
  | D3Cold
  | Unknown
  deriving DecidableEq, Repr

/-- Rust `types.rs::MemoryRegion` (a BAR record); `index` and `width` are `u8`,
`size` is `u64`. -/
structure MemoryRegion where
  index : Nat
  address : String
  size : Nat
  prefetchable : Bool
  width : Nat
  deriving DecidableEq, Repr

/-- Rust `types.rs::IssueSeverity`. -/
inductive IssueSeverity
  | Info
  | Warning
  | High
  | Critical
  deriving DecidableEq, Repr

/-- Rust `types.rs::IssueType`. -/
inductive IssueType
  | ZombieDevice
  | TaintedDriver
  | PartialBinding
  | SpuriousInterrupts
  | AcpiError
  | NoIommuIsolation
  | BlacklistedButActive
  | UnmanagedMemory
  | PowerStateConflict
  deriving DecidableEq, Repr

/-- Rust `types.rs::RiskLevel`. -/
inductive RiskLevel
  | Clean
  | Low
  | Medium
  | High
  | Critical
  deriving DecidableEq, Repr

/-- Rust `types.rs::DeviceIssue`. -/
structure DeviceIssue where
  severity : IssueSeverity
  issue_type : IssueType
  description : String
  remediation : String
  deriving DecidableEq, Repr

/-- Rust `types.rs::PciDevice`.  The Rust field `class` is renamed
`device_class` because `class` is a Lean keyword. -/
structure PciDevice where
  slot : String
  pci_id : String
  description : String
  vendor : String
  device_class : String
  driver : Option String
  kernel_modules : List String
  power_state : PowerState
  enabled : Bool
  iommu_group : Option Nat
  memory_regions : List MemoryRegion
  issues : List DeviceIssue
  deriving DecidableEq, Repr

/-- Rust `types.rs::AcpiError`. -/
structure AcpiError where
  method : String
  error_code : String
  description : String
  related_device : Option String
  deriving DecidableEq, Repr

/-- Rust `types.rs::CrashEvent`; `session_duration` is `u64`. -/
structure CrashEvent where
  boot_id : String
  timestamp : String
  session_duration : Nat
  indicators : List String
  hardware_events : List String
  deriving DecidableEq, Repr

/-- Rust `types.rs::HardwareCorrelation`; the `f64` strength is modelled as an
exact rational (see the header). -/
structure HardwareCorrelation where
  device : String
  event : String
  crash_count : Nat
  strength : ℚ
  deriving DecidableEq, Repr

/-- Rust `types.rs::CrashDiagnosis`. -/
structure CrashDiagnosis where
  boots_analyzed : Nat
  crashes : List CrashEvent
  correlations : List HardwareCorrelation
  confidence : ℚ
  primary_suspect : Option String
  recommendation : String
  deriving DecidableEq, Repr

/-- Rust `types.rs::RemediationStrategy`. -/
inductive RemediationStrategy
  | PciStub
  | VfioPci
  | DualNullDriver
  | AcpiPowerOff
  | SysfsDisable
  | DriverUnbind
  deriving DecidableEq, Repr

/-- Rust `types.rs::RemediationStrategy::requires_reboot`. -/
def RemediationStrategy.requires_reboot : RemediationStrategy → Bool
  | .PciStub => true
  | .VfioPci => true
  | .DualNullDriver => true
  | _ => false

/-- Rust `types.rs::RemediationStrategy::risk_level`. -/
def RemediationStrategy.risk_level : RemediationStrategy → RiskLevel
  | .AcpiPowerOff => .Medium
  | _ => .Low

/-- Rust `types.rs::RemediationStep`. -/
structure RemediationStep where
  description : String
  command : String
  needs_sudo : Bool
  needs_reboot : Bool
  deriving DecidableEq, Repr

/-- Rust `types.rs::RemediationPlan`. -/
structure RemediationPlan where
  id : String
  device : String
  strategy : RemediationStrategy
  steps : List RemediationStep
  undo_steps : List RemediationStep
  requires_reboot : Bool
  risk : RiskLevel
  deriving DecidableEq, Repr

/-- Rust `types.rs::MultiDevicePlan`. -/
structure MultiDevicePlan where
  id : String
  devices : List String
  plans : List RemediationPlan
  requires_reboot : Bool
  risk : RiskLevel
  deriving DecidableEq, Repr

/-- Rust `analyzer/mod.rs::BootEntry`; `duration_secs` is `u64`. -/
structure BootEntry where
  boot_id : String
  timestamp : String
  duration_secs : Nat
  deriving DecidableEq, Repr

/-! ## Scanner (`scanner/mod.rs`) -/

/-- Rust `scanner/mod.rs::assess_risk`: overall system risk from per-device issues
and the ACPI error list. -/
def assess_risk (devices : List PciDevice) (acpi_errors : List AcpiError) : RiskLevel :=
  let critical := (devices.flatMap (·.issues)).any (fun i => i.severity = .Critical)
  let high := ((devices.flatMap (·.issues)).filter (fun i => i.severity = .High)).length
  if critical then .Critical
  else if high > 0 || !acpi_errors.isEmpty then .High
  else if devices.any (fun d => !d.issues.isEmpty) then .Medium
  else .Clean

/-- Wrapping `u64` subtraction (release-profile semantics of `a - b`). -/
def sub64 (a b : Nat) : Nat :=
  (a + 2 ^ 64 - b % 2 ^ 64) % 2 ^ 64

/-- Per-line loop of `scanner/mod.rs::parse_bars`, over the list of lines of
the `resource` file.  `barIndex` is the running `u8` BAR index (wrapping at
256), `skipNext` the flag that skips the upper half of a 64-bit BAR. -/
def parseBarsGo : List (List Char) → Nat → Bool → List MemoryRegion
  | [], _, _ => []
  | line :: rest, barIndex, skipNext =>
    if skipNext then
      parseBarsGo rest ((barIndex + 1) % 256) false
    else
      let parts := split_whitespace line
      if parts.length < 3 then
        parseBarsGo rest ((barIndex + 1) % 256) false
      else
        let start := (fromStrRadix16 (dropAll0x (parts.getD 0 []))).getD 0
        let stop := (fromStrRadix16 (dropAll0x (parts.getD 1 []))).getD 0
        let flags := (fromStrRadix16 (dropAll0x (parts.getD 2 []))).getD 0
        if start = 0 then
          parseBarsGo rest ((barIndex + 1) % 256) false
        else
          let size := (sub64 stop start + 1) % 2 ^ 64
          let prefetchable := flags.testBit 3
          let is64bit := flags.testBit 2
          { index := barIndex
            address := String.mk ('0' :: 'x' :: Nat.toDigits 16 start)
            size := size
            prefetchable := prefetchable
            width := if is64bit then 64 else 32 } ::
            parseBarsGo rest ((barIndex + 1) % 256) is64bit

/-- Rust `scanner/mod.rs::parse_bars`: decode the whole `resource` file content. -/
def parse_bars (content : String) : List MemoryRegion :=
  parseBarsGo (rustLines content) 0 false

/-- Panic-aware variant of the `parse_bars` loop: the `parts[0]`, `parts[1]`,
`parts[2]` indexing operations are the only release-profile panic sites in
the Rust body, and are modelled by `List.get?` with an `Except.error` when
out of bounds.  Arithmetic is the same wrapping arithmetic as above. -/
def parseBarsGoChecked : List (List Char) → Nat → Bool → Except String (List MemoryRegion)
  | [], _, _ => .ok []
  | line :: rest, barIndex, skipNext =>
    if skipNext then
      parseBarsGoChecked rest ((barIndex + 1) % 256) false
    else
      let parts := split_whitespace line
      if parts.length < 3 then
        parseBarsGoChecked rest ((barIndex + 1) % 256) false
      else
        match parts.get? 0, parts.get? 1, parts.get? 2 with
        | some p0, some p1, some p2 =>
          let start := (fromStrRadix16 (dropAll0x p0)).getD 0
          let stop := (fromStrRadix16 (dropAll0x p1)).getD 0
          let flags := (fromStrRadix16 (dropAll0x p2)).getD 0
          if start = 0 then
            parseBarsGoChecked rest ((barIndex + 1) % 256) false
          else
            let size := (sub64 stop start + 1) % 2 ^ 64
            let prefetchable := flags.testBit 3
            let is64bit := flags.testBit 2
            (parseBarsGoChecked rest ((barIndex + 1) % 256) is64bit).map
              (fun rs =>
                { index := barIndex
                  address := String.mk ('0' :: 'x' :: Nat.toDigits 16 start)
                  size := size
                  prefetchable := prefetchable
                  width := if is64bit then 64 else 32 } :: rs)
        | _, _, _ => .error "index out of bounds"

/-- Panic-aware `parse_bars`. -/
def parseBarsChecked (content : String) : Except String (List MemoryRegion) :=
  parseBarsGoChecked (rustLines content) 0 false

/-- The pairwise property claimed for consecutive BAR records: indices
strictly increase, and a 64-bit record is followed by an index at least two
larger. -/
def barPairOk (a b : MemoryRegion) : Bool :=
  decide (a.index < b.index) && (!(a.width == 64) || decide (a.index + 2 ≤ b.index))

/-- The function `barChainB rs` checks `barPairOk` on every consecutive pair. -/
def barChainB : List MemoryRegion → Bool
  | a :: b :: rest => barPairOk a b && barChainB (b :: rest)
  | _ => true

/-! ## `analyzer/mod.rs::truncate`, byte-accurate model -/

/-- Rust `str::is_char_boundary` over the underlying UTF-8 byte list. -/
def isCharBoundary (s : List Nat) (i : Nat) : Bool :=
  if i = 0 then true
  else
    match s.get? i with
    | none => i == s.length
    | some b => b < 128 || 192 ≤ b

/-- Rust `analyzer/mod.rs::truncate` at the byte level: `&s[..max_len]` panics
(`none`) when `max_len` is not a character boundary; otherwise the byte
prefix is returned. -/
def truncate (s : List Nat) (max_len : Nat) : Option (List Nat) :=
  if s.length ≤ max_len then some s
  else if isCharBoundary s max_len then some (s.take max_len) else none

/-- Rust `analyzer/mod.rs::truncate` at the character level, the specialisation
used inside the `diagnose` model: on ASCII text (one byte per character)
it agrees with the byte-level `truncate`. -/
def truncateChars (s : List Char) (max_len : Nat) : List Char :=
  if s.length ≤ max_len then s else s.take max_len

/-! ## Crash analyzer (`analyzer/mod.rs`) -/

/-- Rust `analyzer/mod.rs::PCI_ERROR_PATTERNS`. -/
def PCI_ERROR_PATTERNS : List String :=
  ["pci", "AER", "PCIe Bus Error", "BAR", "DPC:", "ACS"]

/-- Rust `analyzer/mod.rs::ACPI_ERROR_PATTERNS`. -/
def ACPI_ERROR_PATTERNS : List String :=
  ["ACPI Error", "ACPI BIOS Error", "ACPI Exception", "AE_AML", "AE_NOT_FOUND", "_SB._OSC"]

/-- Rust `analyzer/mod.rs::TAINT_PATTERNS`. -/
def TAINT_PATTERNS : List String :=
  ["module verification failed", "tainting kernel", "Tainted:", "loading out-of-tree module"]

/-- Rust `analyzer/mod.rs::CRASH_INDICATORS`. -/
def CRASH_INDICATORS : List String :=
  ["Kernel panic", "BUG:", "Oops:", "RIP:", "Call Trace:", "watchdog: BUG:",
   "Hardware Error", "Machine check events logged", "MCE:"]

/-- Rust `u8::is_ascii_hexdigit` on an ASCII character. -/
def isAsciiHexDigitC (c : Char) : Bool :=
  (hexVal c).isSome

/-- Rust `u8::is_ascii_digit` on an ASCII character. -/
def isAsciiDigitC (c : Char) : Bool :=
  decide ('0' ≤ c ∧ c ≤ '9')

/-- Rust `analyzer/mod.rs::extract_pci_device`: scan left to right for the first
7-character window `HH:HH.D` (two hex pairs, colon, dot, decimal digit) and
return it. -/
def extract_pci_device : List Char → Option (List Char)
  | [] => none
  | c0 :: rest =>
    match rest with
    | c1 :: c2 :: c3 :: c4 :: c5 :: c6 :: _ =>
      if isAsciiHexDigitC c0 && isAsciiHexDigitC c1 && c2 == ':' &&
          isAsciiHexDigitC c3 && isAsciiHexDigitC c4 && c5 == '.' && isAsciiDigitC c6 then
        some [c0, c1, c2, c3, c4, c5, c6]
      else
        extract_pci_device rest
    | _ => none

/-- Stop characters for an ACPI device path: whitespace, `)` or `]`. -/
def isAcpiStop (c : Char) : Bool :=
  isRustWs c || c == ')' || c == ']'

/-- Rust `analyzer/mod.rs::extract_acpi_device`: from the first occurrence of
`_SB`, take characters up to the first whitespace, `)` or `]`. -/
def extract_acpi_device (l : List Char) : Option (List Char) :=
  match l with
  | [] => none
  | c :: cs =>
    if startsWithCL ['_', 'S', 'B'] (c :: cs) then
      some ((c :: cs).takeWhile (fun ch => !isAcpiStop ch))
    else
      extract_acpi_device cs

/-- Rust `analyzer/mod.rs::extract_module_name`: after the first `"module "`,
take the next whitespace-delimited word, rejecting the empty word and
`"verification"`. -/
def extract_module_name (l : List Char) : Option (List Char) :=
  match l with
  | [] => none
  | c :: cs =>
    if startsWithCL ("module ".data) (c :: cs) then
      let rest := (c :: cs).drop 7
      let m := rest.takeWhile (fun ch => !isRustWs ch)
      if m.isEmpty || m == "verification".data then none else some m
    else
      extract_module_name cs

/-- The two `HashMap`s accumulated by `diagnose`, as insertion-ordered
association lists. -/
structure ScanMaps where
  device_events : List (String × List String)
  device_crash_count : List (String × Nat)
  deriving DecidableEq, Repr

/-- Per-boot accumulator of `diagnose`: the global maps plus the boot-local
`indicators` and `hw_events` vectors. -/
structure LineAcc where
  maps : ScanMaps
  indicators : List String
  hw_events : List String
  deriving DecidableEq, Repr

/-- Rust `HashMap::entry(k).or_default().push(v)` on an insertion-ordered
association list. -/
def pushEvent : List (String × List String) → String → String → List (String × List String)
  | [], k, v => [(k, [v])]
  | (k', vs) :: rest, k, v =>
    if k' = k then (k', vs ++ [v]) :: rest else (k', vs) :: pushEvent rest k v

/-- Rust `*HashMap::entry(k).or_default() += 1` on an insertion-ordered
association list. -/
def bumpCount : List (String × Nat) → String → List (String × Nat)
  | [], k => [(k, 1)]
  | (k', n) :: rest, k =>
    if k' = k then (k', n + 1) :: rest else (k', n) :: bumpCount rest k

/-- Rust `HashMap::get` on an insertion-ordered association list. -/
def lookupAssoc : List (String × List String) → String → Option (List String)
  | [], _ => none
  | (k', vs) :: rest, k => if k' = k then some vs else lookupAssoc rest k

/-- PCI-pattern family of the per-line scan in `diagnose` (first matching
pattern wins; the device filter, when set and non-matching, suppresses the
whole family via `continue`). -/
def pciStep (device_filter : Option String) (is_unclean : Bool) (acc : LineAcc)
    (line : List Char) : LineAcc :=
  let line_lower := line.map Char.toLower
  match PCI_ERROR_PATTERNS.find? (fun p => containsSub line_lower (p.data.map Char.toLower)) with
  | none => acc
  | some _ =>
    let hwLine := "PCI event: " ++ String.mk (truncateChars line 100)
    match extract_pci_device line with
    | some dev =>
      let devS := String.mk dev
      let keep :=
        match device_filter with
        | some f => strContains devS f
        | none => true
      if keep then
        { acc with
          maps :=
            { device_events :=
                pushEvent acc.maps.device_events devS
                  ("PCI: " ++ String.mk (truncateChars line 120))
              device_crash_count :=
                if is_unclean then bumpCount acc.maps.device_crash_count devS
                else acc.maps.device_crash_count }
          hw_events := acc.hw_events ++ [hwLine] }
      else acc
    | none => { acc with hw_events := acc.hw_events ++ [hwLine] }

/-- ACPI-pattern family of the per-line scan in `diagnose`. -/
def acpiStep (is_unclean : Bool) (acc : LineAcc) (line : List Char) : LineAcc :=
  match ACPI_ERROR_PATTERNS.find? (fun p => containsSub line p.data) with
  | none => acc
  | some _ =>
    let hwLine := "ACPI event: " ++ String.mk (truncateChars line 100)
    match extract_acpi_device line with
    | some dev =>
      let devS := String.mk dev
      { acc with
        maps :=
          { device_events :=
              pushEvent acc.maps.device_events devS
                ("ACPI: " ++ String.mk (truncateChars line 120))
            device_crash_count :=
              if is_unclean then bumpCount acc.maps.device_crash_count devS
              else acc.maps.device_crash_count }
        hw_events := acc.hw_events ++ [hwLine] }
    | none => { acc with hw_events := acc.hw_events ++ [hwLine] }

/-- Taint-pattern family of the per-line scan in `diagnose`. -/
def taintStep (acc : LineAcc) (line : List Char) : LineAcc :=
  match TAINT_PATTERNS.find? (fun p => containsSub line p.data) with
  | none => acc
  | some _ =>
    let acc' :=
      { acc with indicators := acc.indicators ++ ["Taint: " ++ String.mk (truncateChars line 100)] }
    match extract_module_name line with
    | some m => { acc' with hw_events := acc'.hw_events ++ ["Tainted module: " ++ String.mk m] }
    | none => acc'

/-- Crash-indicator family of the per-line scan in `diagnose`. -/
def crashStep (acc : LineAcc) (line : List Char) : LineAcc :=
  match CRASH_INDICATORS.find? (fun p => containsSub line p.data) with
  | none => acc
  | some _ => { acc with indicators := acc.indicators ++ [String.mk (truncateChars line 120)] }

/-- One line of the `diagnose` scan: the four pattern families in source
order. -/
def scanLine (device_filter : Option String) (is_unclean : Bool) (acc : LineAcc)
    (line : List Char) : LineAcc :=
  crashStep (taintStep (acpiStep is_unclean (pciStep device_filter is_unclean acc line) line) line) line

/-- Scan one boot's kernel log, starting from the global maps with fresh
boot-local vectors. -/
def scanBoot (device_filter : Option String) (is_unclean : Bool) (maps : ScanMaps)
    (log : String) : LineAcc :=
  (rustLines log).foldl (scanLine device_filter is_unclean) ⟨maps, [], []⟩

/-- The boot loop of `diagnose` over `(BootEntry, kernel log)` pairs: flag
unclean boots, skip clean non-current boots, scan the rest, and collect
`CrashEvent`s. -/
def diagnoseBoots (device_filter : Option String) :
    List (BootEntry × String) → ScanMaps → List CrashEvent → List CrashEvent × ScanMaps
  | [], maps, crashes => (crashes, maps)
  | (entry, log) :: rest, maps, crashes =>
    let has_crash_indicators := CRASH_INDICATORS.any (fun p => strContains log p)
    let is_short_session := decide (entry.duration_secs < 120)
    let is_unclean := is_short_session || has_crash_indicators
    if !is_unclean && !rest.isEmpty then
      diagnoseBoots device_filter rest maps crashes
    else
      let acc := scanBoot device_filter is_unclean maps log
      let crashes' :=
        if is_unclean || !acc.indicators.isEmpty || !acc.hw_events.isEmpty then
          crashes ++ [{ boot_id := entry.boot_id
                        timestamp := entry.timestamp
                        session_duration := entry.duration_secs
                        indicators := acc.indicators
                        hardware_events := acc.hw_events }]
        else crashes
      diagnoseBoots device_filter rest acc.maps crashes'

/-- Stable insertion into a strength-descending list: the inserted element
goes before the first element of not-larger strength, matching the stable
`sort_by(|a, b| b.strength.partial_cmp(&a.strength))` of the source (a
stable sort is extensionally unique, so insertion sort is a faithful
model; the comparator never sees a NaN because strengths are ratios with
positive denominator). -/
def insertDesc (x : HardwareCorrelation) : List HardwareCorrelation → List HardwareCorrelation
  | [] => [x]
  | y :: ys => if y.strength ≤ x.strength then x :: y :: ys else y :: insertDesc x ys

/-- Stable strength-descending sort of the correlation list. -/
def sortByStrengthDesc : List HardwareCorrelation → List HardwareCorrelation
  | [] => []
  | x :: xs => insertDesc x (sortByStrengthDesc xs)

/-- Rust `analyzer/mod.rs::diagnose`, with the journal effects lifted: `boots` is
the listed boots paired with each boot's kernel log text (the results of
`list_boots` and `read_boot_log`). -/
def diagnose (boots : List (BootEntry × String)) (device_filter : Option String) :
    CrashDiagnosis :=
  if boots.isEmpty then
    { boots_analyzed := 0
      crashes := []
      correlations := []
      confidence := 0
      primary_suspect := none
      recommendation := "No boot records found. Check journalctl access." }
  else
    let res := diagnoseBoots device_filter boots ⟨[], []⟩ []
    let crashes := res.1
    let maps := res.2
    let total_crashes := max crashes.length 1
    let correlations :=
      maps.device_crash_count.map (fun dc =>
        let event_desc := ((lookupAssoc maps.device_events dc.1).bind List.head?).getD "Hardware event"
        { device := dc.1
          event := event_desc
          crash_count := dc.2
          strength := mkRat dc.2 total_crashes })
    let correlations := sortByStrengthDesc correlations
    let primary_suspect := correlations.head?.map (·.device)
    let confidence := (correlations.head?.map (·.strength)).getD 0
    let recommendation :=
      match primary_suspect with
      | some suspect =>
        if mkRat 7 10 < confidence then
          "High confidence: device " ++ suspect ++
            " is likely causing crashes. Run `hardware-crash-team plan " ++ suspect ++
            "` to generate remediation."
        else if mkRat 3 10 < confidence then
          "Moderate confidence: device " ++ suspect ++
            " correlates with crashes. Investigate with `hardware-crash-team scan` for details."
        else
          "Low correlation found. Crashes may have multiple causes. Review full boot logs."
      | none =>
        if crashes.isEmpty then
          "No crashes detected in analyzed boots. System appears stable."
        else
          "Crashes detected but no hardware correlation found. May be software issue."
    { boots_analyzed := boots.length
      crashes := crashes
      correlations := correlations
      confidence := confidence
      primary_suspect := primary_suspect
      recommendation := recommendation }

/-! ## Remediation planner (`remediation/mod.rs`) -/

/-- Rust `remediation/mod.rs::parse_strategy`. -/
def parse_strategy : Option String → Except String RemediationStrategy
  | some "pci-stub" => .ok .PciStub
  | some "vfio-pci" => .ok .VfioPci
  | some "dual" => .ok .DualNullDriver
  | some "both" => .ok .DualNullDriver
  | some "power-off" => .ok .AcpiPowerOff
  | some "disable" => .ok .SysfsDisable
  | some "unbind" => .ok .DriverUnbind
  | some other =>
    .error ("Unknown strategy: " ++ other ++
      ". Use: pci-stub, vfio-pci, dual, power-off, disable, unbind")
  | none => .ok .DualNullDriver

/-- Rust `remediation/mod.rs::strategy_name`. -/
def strategy_name : RemediationStrategy → Option String
  | .PciStub => some "pci-stub"
  | .VfioPci => some "vfio-pci"
  | .DualNullDriver => some "dual"
  | .AcpiPowerOff => some "power-off"
  | .SysfsDisable => some "disable"
  | .DriverUnbind => some "unbind"

/-- The `(vendor, dev_id)` pair of `create_plan`:
`pci_id.split_once(':').unwrap_or(("0000", "0000"))`. -/
def splitPciId (pci_id : String) : String × String :=
  match splitOnceChar ':' pci_id.data with
  | some (a, b) => (String.mk a, String.mk b)
  | none => ("0000", "0000")

/-- The plan id of `create_plan`:
`format!("plan-{}-{}", device.replace(':', "-"), timestamp)`. -/
def planId (device : String) (ts : Int) : String :=
  "plan-" ++ String.mk (device.data.map (fun c => if c = ':' then '-' else c)) ++ "-" ++ toString ts

/-- Rust `remediation/mod.rs::create_plan`.  Effects are lifted into oracles:
`readPciId` is `read_device_pci_id` (a sysfs read that can fail), and
`readDriverLink` is the `read_link(...).file_name()` chain of the
`DriverUnbind` arm; `ts` is the Unix timestamp used in the plan id. -/
def create_plan (device : String) (strategy : Option String)
    (readPciId : String → Except String String)
    (readDriverLink : String → Option String) (ts : Int) :
    Except String RemediationPlan := do
  let strategy ← parse_strategy strategy
  let pci_id ← readPciId device
  let vd := splitPciId pci_id
  let vendor := vd.1
  let dev_id := vd.2
  let plan_id := planId device ts
  match strategy with
  | .DualNullDriver =>
    .ok
      { id := plan_id
        device := device
        strategy := .DualNullDriver
        steps :=
          [{ description := "Claim device " ++ device ++ " with pci-stub and vfio-pci null drivers"
             command :=
               "rpm-ostree kargs --append=pci-stub.ids=" ++ vendor ++ ":" ++ dev_id ++ "," ++
                 vendor ++ ":" ++ dev_id ++ " --append=vfio-pci.ids=" ++ vendor ++ ":" ++
                 dev_id ++ "," ++ vendor ++ ":" ++ dev_id ++ " --append=rd.driver.pre=vfio-pci"
             needs_sudo := true
             needs_reboot := true }]
        undo_steps :=
          [{ description := "Remove pci-stub and vfio-pci claims for device " ++ device
             command :=
               "rpm-ostree kargs --delete=pci-stub.ids=" ++ vendor ++ ":" ++ dev_id ++ "," ++
                 vendor ++ ":" ++ dev_id ++ " --delete=vfio-pci.ids=" ++ vendor ++ ":" ++
                 dev_id ++ "," ++ vendor ++ ":" ++ dev_id ++ " --delete=rd.driver.pre=vfio-pci"
             needs_sudo := true
             needs_reboot := true }]
        requires_reboot := true
        risk := .Low }
  | .PciStub =>
    .ok
      { id := plan_id
        device := device
        strategy := .PciStub
        steps :=
          [{ description := "Claim device " ++ device ++ " with pci-stub kernel null driver"
             command := "rpm-ostree kargs --append=pci-stub.ids=" ++ vendor ++ ":" ++ dev_id
             needs_sudo := true
             needs_reboot := true }]
        undo_steps :=
          [{ description := "Remove pci-stub claim for device " ++ device
             command := "rpm-ostree kargs --delete=pci-stub.ids=" ++ vendor ++ ":" ++ dev_id
             needs_sudo := true
             needs_reboot := true }]
        requires_reboot := true
        risk := .Low }
  | .VfioPci =>
    .ok
      { id := plan_id
        device := device
        strategy := .VfioPci
        steps :=
          [{ description := "Claim device " ++ device ++ " with vfio-pci (IOMMU-backed isolation)"
             command :=
               "rpm-ostree kargs --append=vfio-pci.ids=" ++ vendor ++ ":" ++ dev_id ++
                 " --append=rd.driver.pre=vfio-pci"
             needs_sudo := true
             needs_reboot := true }]
        undo_steps :=
          [{ description := "Remove vfio-pci claim for device " ++ device
             command :=
               "rpm-ostree kargs --delete=vfio-pci.ids=" ++ vendor ++ ":" ++ dev_id ++
                 " --delete=rd.driver.pre=vfio-pci"
             needs_sudo := true
             needs_reboot := true }]
        requires_reboot := true
        risk := .Low }
  | .AcpiPowerOff =>
    .ok
      { id := plan_id
        device := device
        strategy := .AcpiPowerOff
        steps :=
          [{ description := "Set device " ++ device ++ " power control to auto"
             command := "echo auto > /sys/bus/pci/devices/" ++ device ++ "/power/control"
             needs_sudo := true
             needs_reboot := false },
           { description := "Remove device " ++ device ++ " from PCI bus"
             command := "echo 1 > /sys/bus/pci/devices/" ++ device ++ "/remove"
             needs_sudo := true
             needs_reboot := false }]
        undo_steps :=
          [{ description := "Rescan PCI bus to re-discover removed device"
             command := "echo 1 > /sys/bus/pci/rescan"
             needs_sudo := true
             needs_reboot := false }]
        requires_reboot := false
        risk := .Medium }
  | .SysfsDisable =>
    .ok
      { id := plan_id
        device := device
        strategy := .SysfsDisable
        steps :=
          [{ description := "Disable device " ++ device ++ " via sysfs"
             command := "echo 0 > /sys/bus/pci/devices/" ++ device ++ "/enable"
             needs_sudo := true
             needs_reboot := false }]
        undo_steps :=
          [{ description := "Re-enable device " ++ device ++ " via sysfs"
             command := "echo 1 > /sys/bus/pci/devices/" ++ device ++ "/enable"
             needs_sudo := true
             needs_reboot := false }]
        requires_reboot := false
        risk := .Low }
  | .DriverUnbind =>
    let driver_name :=
      (readDriverLink ("/sys/bus/pci/devices/" ++ device ++ "/driver")).getD "unknown"
    .ok
      { id := plan_id
        device := device
        strategy := .DriverUnbind
        steps :=
          [{ description := "Unbind driver " ++ driver_name ++ " from device " ++ device
             command :=
               "echo " ++ device ++ " > /sys/bus/pci/devices/" ++ device ++ "/driver/unbind"
             needs_sudo := true
             needs_reboot := false }]
        undo_steps :=
          [{ description := "Rebind device " ++ device ++ " to driver " ++ driver_name
             command := "echo " ++ device ++ " > /sys/bus/pci/drivers/" ++ driver_name ++ "/bind"
             needs_sudo := true
             needs_reboot := false }]
        requires_reboot := false
        risk := .Low }

/-- Rust `slice::join` on strings. -/
def joinWith (sep : String) : List String → String
  | [] => ""
  | [x] => x
  | x :: y :: rest => x ++ sep ++ joinWith sep (y :: rest)

/-- Rust `remediation/mod.rs::create_combined_kargs_plan`.  The `unreachable!`
arm for non-kargs strategies is modelled by empty argument lists (the
caller never reaches it). -/
def create_combined_kargs_plan (plan_id : String)
    (device_ids : List (String × String × String)) (strategy : RemediationStrategy) :
    RemediationPlan :=
  let all_slots := joinWith ", " (device_ids.map (·.1))
  let combined := joinWith "," (device_ids.map (fun x => x.2.1 ++ ":" ++ x.2.2))
  let args : List String × List String :=
    match strategy with
    | .PciStub =>
      (["--append=pci-stub.ids=" ++ combined], ["--delete=pci-stub.ids=" ++ combined])
    | .VfioPci =>
      (["--append=vfio-pci.ids=" ++ combined, "--append=rd.driver.pre=vfio-pci"],
       ["--delete=vfio-pci.ids=" ++ combined, "--delete=rd.driver.pre=vfio-pci"])
    | .DualNullDriver =>
      (["--append=pci-stub.ids=" ++ combined, "--append=vfio-pci.ids=" ++ combined,
        "--append=rd.driver.pre=vfio-pci"],
       ["--delete=pci-stub.ids=" ++ combined, "--delete=vfio-pci.ids=" ++ combined,
        "--delete=rd.driver.pre=vfio-pci"])
    | _ => ([], [])
  { id := plan_id ++ "-combined"
    device := all_slots
    strategy := strategy
    steps :=
      [{ description := "Claim devices [" ++ all_slots ++ "] via kernel args"
         command := "rpm-ostree kargs " ++ joinWith " " args.1
         needs_sudo := true
         needs_reboot := true }]
    undo_steps :=
      [{ description := "Remove kernel arg claims for devices [" ++ all_slots ++ "]"
         command := "rpm-ostree kargs " ++ joinWith " " args.2
         needs_sudo := true
         needs_reboot := true }]
    requires_reboot := true
    risk := .Low }

/-- The id-collection loop of `create_multi_plan`
(`for dev in devices { device_ids.push((dev, vendor, device)) }`, with the
`?` operator propagating `read_device_pci_id` errors). -/
def collectDeviceIds (readPciId : String → Except String String) :
    List String → Except String (List (String × String × String))
  | [] => .ok []
  | dev :: rest => do
    let pci_id ← readPciId dev
    let vd := splitPciId pci_id
    let tail ← collectDeviceIds readPciId rest
    pure ((dev, vd.1, vd.2) :: tail)

/-- The per-device plan loop of `create_multi_plan`
(`for dev in devices { plans.push(create_plan(dev, ...)?) }`). -/
def collectPlans (f : String → Except String RemediationPlan) :
    List String → Except String (List RemediationPlan)
  | [] => .ok []
  | dev :: rest => do
    let p ← f dev
    let tail ← collectPlans f rest
    pure (p :: tail)

/-- Rust `remediation/mod.rs::create_multi_plan`, with the same lifted oracles as
`create_plan`. -/
def create_multi_plan (devices : List String) (strategy : Option String)
    (readPciId : String → Except String String)
    (readDriverLink : String → Option String) (ts : Int) :
    Except String MultiDevicePlan := do
  let strategy ← parse_strategy strategy
  let plan_id := "multi-plan-" ++ toString ts
  let device_ids ← collectDeviceIds readPciId devices
  let plans ←
    match strategy with
    | .PciStub | .VfioPci | .DualNullDriver =>
      pure [create_combined_kargs_plan plan_id device_ids strategy]
    | _ =>
      collectPlans (fun dev => create_plan dev (strategy_name strategy) readPciId readDriverLink ts) devices
  .ok
    { id := plan_id
      devices := devices
      plans := plans
      requires_reboot := strategy.requires_reboot
      risk := strategy.risk_level }

/-! ## Claim-side definitions -/

/-- Rust `str::replace` for a non-empty pattern: replace every
(leftmost, non-overlapping) occurrence of `pat` by `rep`. -/
def replaceAll (pat rep : List Char) : List Char → List Char
  | [] => []
  | c :: cs =>
    if h : pat ≠ [] ∧ startsWithCL pat (c :: cs) = true then
      rep ++ replaceAll pat rep ((c :: cs).drop pat.length)
    else
      c :: replaceAll pat rep cs
termination_by l => l.length
decreasing_by
  · simp only [List.length_drop, List.length_cons]
    cases pat with
    | nil => exact absurd rfl h.1
    | cons p ps => simp; omega
  · simp

/-- The function `strReplace s pat rep` is Rust `s.replace(pat, rep)` on strings. -/
def strReplace (s pat rep : String) : String :=
  String.mk (replaceAll pat.data rep.data s.data)

/-- The function `hasDD l` is true when `l` contains two adjacent `'-'` characters; a
string without them cannot contain `--append=` (or `--delete=`). -/
def hasDD : List Char → Bool
  | [] => false
  | [_] => false
  | a :: b :: rest => (a == '-' && b == '-') || hasDD (b :: rest)

/-- Spec-side condition `has_critical`: some device issue has severity
Critical. -/
def hasCriticalSpec (devices : List PciDevice) : Prop :=
  ∃ d ∈ devices, ∃ i ∈ d.issues, i.severity = .Critical

/-- Spec-side `high_count`: the number of High-severity issues over all
devices. -/
def highCountSpec (devices : List PciDevice) : Nat :=
  (devices.map (fun d => (d.issues.filter (fun i => i.severity = .High)).length)).sum

/-- Spec-side condition `any_issue`: some device has at least one issue. -/
def anyIssueSpec (devices : List PciDevice) : Prop :=
  ∃ d ∈ devices, d.issues ≠ []

/-- The ordering claimed for a correlation list: strength non-increasing,
and equal-strength neighbours in ascending device-string order. -/
def correlationsClaimOrdered (l : List HardwareCorrelation) : Prop :=
  List.Pairwise
    (fun a b => b.strength ≤ a.strength ∧ (a.strength = b.strength → lexLe a.device.data b.device.data = true))
    l

/-! ## Helper lemmas -/

instance (devices : List PciDevice) : Decidable (hasCriticalSpec devices) := by
  unfold hasCriticalSpec
  exact List.decidableBEx _ devices

instance (devices : List PciDevice) : Decidable (anyIssueSpec devices) := by
  unfold anyIssueSpec
  exact List.decidableBEx _ devices

theorem anyCritical_iff (devices : List PciDevice) :
    ((devices.flatMap (·.issues)).any fun i => decide (i.severity = .Critical)) = true ↔
      hasCriticalSpec devices := by
  simp only [List.any_eq_true, List.mem_flatMap, decide_eq_true_eq, hasCriticalSpec]
  constructor
  · rintro ⟨i, ⟨d, hd, hi⟩, hs⟩
    exact ⟨d, hd, i, hi, hs⟩
  · rintro ⟨d, hd, i, hi, hs⟩
    exact ⟨i, ⟨d, hd, hi⟩, hs⟩

theorem highCount_eq (devices : List PciDevice) :
    ((devices.flatMap (·.issues)).filter fun i => decide (i.severity = .High)).length =
      highCountSpec devices := by
  induction devices with
  | nil => simp [highCountSpec]
  | cons d ds ih =>
    simp only [highCountSpec, List.flatMap_cons, List.filter_append, List.length_append,
      List.map_cons, List.sum_cons] at *
    omega

theorem anyIssue_iff (devices : List PciDevice) :
    (devices.any fun d => !d.issues.isEmpty) = true ↔ anyIssueSpec devices := by
  simp [List.any_eq_true, anyIssueSpec, List.isEmpty_iff]

/-! ## C5: system risk tiering -/

/-- C5: for every device list and ACPI error list, `assess_risk` returns
Critical when some issue is Critical; else High when there is a
High-severity issue or any ACPI error; else Medium when any device has an
issue; else Clean. -/
theorem assess_risk_tiering (devices : List PciDevice) (acpi_errors : List AcpiError) :
    assess_risk devices acpi_errors =
      if hasCriticalSpec devices then RiskLevel.Critical
      else if 0 < highCountSpec devices ∨ acpi_errors ≠ [] then RiskLevel.High
      else if anyIssueSpec devices then RiskLevel.Medium
      else RiskLevel.Clean := by
  by_cases h1 : hasCriticalSpec devices
  · have hb : ((devices.flatMap (·.issues)).any fun i => decide (i.severity = .Critical)) = true :=
      (anyCritical_iff devices).mpr h1
    simp [assess_risk, hb, h1]
  · have hb : ((devices.flatMap (·.issues)).any fun i => decide (i.severity = .Critical)) = false :=
      Bool.eq_false_iff.mpr (fun hc => h1 ((anyCritical_iff devices).mp hc))
    by_cases h2 : 0 < highCountSpec devices ∨ acpi_errors ≠ []
    · have hcond :
          (decide (((devices.flatMap (·.issues)).filter fun i => decide (i.severity = .High)).length > 0)
            || !acpi_errors.isEmpty) = true := by
        rcases h2 with h2 | h2
        · have : ((devices.flatMap (·.issues)).filter fun i => decide (i.severity = .High)).length > 0 := by
            rw [highCount_eq]; exact h2
          simp [this]
        · simp [List.isEmpty_iff, h2]
      simp [assess_risk, hb, h1, h2, hcond]
    · have hno1 : ¬ (0 < highCountSpec devices) := fun h => h2 (Or.inl h)
      have hno2 : ¬ (acpi_errors ≠ []) := fun h => h2 (Or.inr h)
      have hcond :
          (decide (((devices.flatMap (·.issues)).filter fun i => decide (i.severity = .High)).length > 0)
            || !acpi_errors.isEmpty) = false := by
        have hl : ((devices.flatMap (·.issues)).filter fun i => decide (i.severity = .High)).length = 0 := by
          rw [highCount_eq]; omega
        have he : acpi_errors.isEmpty = true := by
          simp [List.isEmpty_iff]; exact not_not.mp hno2
        simp [hl, he]
      by_cases h3 : anyIssueSpec devices
      · have h3b : (devices.any fun d => !d.issues.isEmpty) = true := (anyIssue_iff devices).mpr h3
        simp [assess_risk, hb, h1, h2, hcond, h3, h3b]
      · have h3b : (devices.any fun d => !d.issues.isEmpty) = false :=
          Bool.eq_false_iff.mpr (fun hc => h3 ((anyIssue_iff devices).mp hc))
        simp [assess_risk, hb, h1, h2, hcond, h3, h3b]

/-! ## C7: DualNullDriver single-device apply command -/

/-- C7: the claim states that on a device with ids `V:D` the DualNullDriver
apply command's ids tokens each carry the pair `V:D` exactly once.  The code
interpolates the pair twice into each ids token: on the concrete device
`01:00.0` with ids `10de:13b0` the generated command carries
`pci-stub.ids=10de:13b0,10de:13b0` (and likewise for `vfio-pci.ids`), so the
command differs from the claimed one. -/
theorem create_plan_dual_duplicates_ids :
    ∃ plan,
      create_plan "01:00.0" (some "dual") (fun _ => .ok "10de:13b0") (fun _ => none) 0 = .ok plan ∧
      plan.steps.map (·.command) =
        ["rpm-ostree kargs --append=pci-stub.ids=10de:13b0,10de:13b0 --append=vfio-pci.ids=10de:13b0,10de:13b0 --append=rd.driver.pre=vfio-pci"] ∧
      plan.steps.map (·.command) ≠
        ["rpm-ostree kargs --append=pci-stub.ids=10de:13b0 --append=vfio-pci.ids=10de:13b0 --append=rd.driver.pre=vfio-pci"] :=
  ⟨_, rfl, by decide, by decide⟩

/-! ## C2: correlation strength outside the unit interval -/

/-- C2: the claim states every correlation strength lies in `[0, 1]`.  On a
single unclean boot whose log mentions the same device on two lines,
`diagnose` counts the device twice against one crash boot, producing
strength 2: the claim fails on the code. -/
theorem diagnose_strength_exceeds_one :
    ∃ c ∈ (diagnose
        [({ boot_id := "b1", timestamp := "2026-01-01", duration_secs := 50 },
          "pci err at 0000:01:00.0\npci err at 0000:01:00.0")] none).correlations,
      1 < c.strength := by decide

/-! ## C3: crash_count counted per line, not per boot -/

/-- C3: the claim states a device's `crash_count` is incremented at most once
per unclean boot, hence bounded by the number of boots analyzed.  On a
single unclean boot whose log mentions the device `02:00.0` on two lines,
the code increments the count once per line: `crash_count = 2` exceeds the
single boot analyzed. -/
theorem diagnose_crash_count_exceeds_boots :
    ∃ c ∈ (diagnose
        [({ boot_id := "b1", timestamp := "2026-01-02", duration_secs := 10 },
          "pci fault at 0000:02:00.0\npci fault at 0000:02:00.0")] none).correlations,
      (diagnose
        [({ boot_id := "b1", timestamp := "2026-01-02", duration_secs := 10 },
          "pci fault at 0000:02:00.0\npci fault at 0000:02:00.0")] none).boots_analyzed <
        c.crash_count := by decide

/-! ## Sortedness of correlations -/

theorem mem_insertDesc {x y : HardwareCorrelation} {l : List HardwareCorrelation}
    (h : y ∈ insertDesc x l) : y = x ∨ y ∈ l := by
  induction l with
  | nil =>
    rw [show insertDesc x [] = [x] from rfl] at h
    exact Or.inl (List.mem_singleton.mp h)
  | cons z zs ih =>
    unfold insertDesc at h
    by_cases hc : z.strength ≤ x.strength
    · rw [if_pos hc] at h
      rcases List.mem_cons.mp h with h | h
      · exact Or.inl h
      · exact Or.inr h
    · rw [if_neg hc] at h
      rcases List.mem_cons.mp h with h | h
      · exact Or.inr (List.mem_cons.mpr (Or.inl h))
      · rcases ih h with h | h
        · exact Or.inl h
        · exact Or.inr (List.mem_cons.mpr (Or.inr h))

theorem sorted_insertDesc (x : HardwareCorrelation) (l : List HardwareCorrelation)
    (h : List.Sorted (fun a b => b.strength ≤ a.strength) l) :
    List.Sorted (fun a b => b.strength ≤ a.strength) (insertDesc x l) := by
  induction l with
  | nil => simp [insertDesc]
  | cons y ys ih =>
    rw [List.sorted_cons] at h
    obtain ⟨h1, h2⟩ := h
    unfold insertDesc
    by_cases hc : y.strength ≤ x.strength
    · rw [if_pos hc, List.sorted_cons]
      refine ⟨?_, List.sorted_cons.mpr ⟨h1, h2⟩⟩
      intro b hb
      rcases List.mem_cons.mp hb with hb | hb
      · exact hb ▸ hc
      · exact le_trans (h1 b hb) hc
    · rw [if_neg hc, List.sorted_cons]
      refine ⟨?_, ih h2⟩
      intro b hb
      rcases mem_insertDesc hb with hb | hb
      · exact hb ▸ le_of_not_le hc
      · exact h1 b hb

theorem sorted_sortByStrengthDesc (l : List HardwareCorrelation) :
    List.Sorted (fun a b => b.strength ≤ a.strength) (sortByStrengthDesc l) := by
  induction l with
  | nil => simp [sortByStrengthDesc]
  | cons x xs ih => exact sorted_insertDesc x _ ih

/-! ## C8: ordering of the correlation list -/

/-- C8 (amended): for every diagnosis the correlation list is sorted by
strength in non-increasing order.  The claimed device-string tie-break is
not applied by the code (see the counterexample below); the order of
equal-strength correlations is whatever the hash-map iteration produced. -/
theorem diagnose_correlations_sorted (boots : List (BootEntry × String))
    (device_filter : Option String) :
    List.Sorted (fun a b => b.strength ≤ a.strength)
      ((diagnose boots device_filter).correlations) := by
  unfold diagnose
  by_cases hb : boots.isEmpty = true
  · rw [if_pos hb]
    simp
  · rw [if_neg hb]
    exact sorted_sortByStrengthDesc _

/-- C8 counterexample: one unclean boot whose log names device `bb:00.0`
before `aa:00.0`, each once.  Both correlations get strength 1, and the
code (which sorts only by strength, stably) leaves `bb:00.0` before
`aa:00.0`: equal strengths in descending device order, contradicting the
claimed ascending tie-break. -/
theorem diagnose_tie_order_counterexample :
    ¬ correlationsClaimOrdered (diagnose
        [({ boot_id := "b1", timestamp := "2026-01-03", duration_secs := 50 },
          "pci fault bb:00.0\npci fault aa:00.0")] none).correlations := by
  intro h
  have hc : (diagnose
      [({ boot_id := "b1", timestamp := "2026-01-03", duration_secs := 50 },
        "pci fault bb:00.0\npci fault aa:00.0")] none).correlations =
      [{ device := "bb:00.0", event := "PCI: pci fault bb:00.0", crash_count := 1,
         strength := mkRat 1 1 },
       { device := "aa:00.0", event := "PCI: pci fault aa:00.0", crash_count := 1,
         strength := mkRat 1 1 }] := by decide
  rw [hc] at h
  unfold correlationsClaimOrdered at h
  rw [List.pairwise_cons] at h
  have hrel := (h.1 _ (List.mem_cons_self _ _)).2 rfl
  exact absurd hrel (by decide)

/-! ## C4: BAR decoding is total -/

theorem parseBarsGoChecked_eq_ok (lines : List (List Char)) :
    ∀ (i : Nat) (skip : Bool),
      parseBarsGoChecked lines i skip = .ok (parseBarsGo lines i skip) := by
  induction lines with
  | nil => intro i skip; rfl
  | cons line rest ih =>
    intro i skip
    cases skip with
    | true => simp [parseBarsGoChecked, parseBarsGo, ih]
    | false =>
      by_cases h3 : (split_whitespace line).length < 3
      · simp [parseBarsGoChecked, parseBarsGo, h3, ih]
      · have hlt0 : 0 < (split_whitespace line).length := by omega
        have hlt1 : 1 < (split_whitespace line).length := by omega
        have hlt2 : 2 < (split_whitespace line).length := by omega
        have h0 := List.get?_eq_get hlt0
        have h1 := List.get?_eq_get hlt1
        have h2 := List.get?_eq_get hlt2
        have g0 : (split_whitespace line).getD 0 [] = (split_whitespace line).get ⟨0, hlt0⟩ := by
          rw [List.getD_eq_get?, h0]; rfl
        have g1 : (split_whitespace line).getD 1 [] = (split_whitespace line).get ⟨1, hlt1⟩ := by
          rw [List.getD_eq_get?, h1]; rfl
        have g2 : (split_whitespace line).getD 2 [] = (split_whitespace line).get ⟨2, hlt2⟩ := by
          rw [List.getD_eq_get?, h2]; rfl
        simp only [parseBarsGoChecked, parseBarsGo, h3, if_false, h0, h1, h2, g0, g1, g2, ih,
          Except.map]
        simp only [Bool.false_eq_true, if_false]
        rw [apply_ite Except.ok]

/-- C4: for every resource-file content (malformed lines, non-hex tokens,
reversed address ranges and short lines included) BAR decoding returns a
list of records with no panic: the panic-aware decoder always returns `ok`
of the total decoder's output.  Parse failures are absorbed by
`unwrap_or(0)` (modelled by `Option.getD`), and the `end - start + 1`
arithmetic uses the wrapping release-profile semantics. -/
theorem parse_bars_no_panic (content : String) :
    parseBarsChecked content = .ok (parse_bars content) :=
  parseBarsGoChecked_eq_ok (rustLines content) 0 false

/-! ## C6: BAR index monotonicity -/

theorem parseBarsGo_index_lb (lines : List (List Char)) :
    ∀ (i : Nat) (skip : Bool), i + lines.length ≤ 256 →
      ∀ r ∈ parseBarsGo lines i skip, i + (if skip then 1 else 0) ≤ r.index := by
  induction lines with
  | nil =>
    intro i skip _ r hr
    simp [parseBarsGo] at hr
  | cons line rest ih =>
    intro i skip hb r hr
    rcases Nat.lt_or_ge (i + 1) 256 with hlt | hge
    · have hmod : (i + 1) % 256 = i + 1 := Nat.mod_eq_of_lt hlt
      have hb' : (i + 1) + rest.length ≤ 256 := by
        simp only [List.length_cons] at hb
        omega
      cases skip with
      | true =>
        rw [show parseBarsGo (line :: rest) i true =
              parseBarsGo rest ((i + 1) % 256) false from rfl, hmod] at hr
        have := ih (i + 1) false hb' r hr
        simp at this ⊢
        omega
      | false =>
        simp only [parseBarsGo, hmod] at hr
        by_cases h3 : (split_whitespace line).length < 3
        · rw [if_pos h3] at hr
          have := ih (i + 1) false hb' r hr
          simp at this ⊢
          omega
        · rw [if_neg h3] at hr
          by_cases h0 :
              (fromStrRadix16 (dropAll0x ((split_whitespace line).getD 0 []))).getD 0 = 0
          · rw [if_pos h0] at hr
            have := ih (i + 1) false hb' r hr
            simp at this ⊢
            omega
          · rw [if_neg h0] at hr
            rcases List.mem_cons.mp hr with hr | hr
            · subst hr
              simp
            · have := ih (i + 1) _ hb' r hr
              simp at this ⊢
              omega
    · have hlen : rest.length = 0 := by
        simp only [List.length_cons] at hb
        omega
      have hnil : rest = [] := List.length_eq_zero.mp hlen
      subst hnil
      cases skip with
      | true =>
        rw [show parseBarsGo [line] i true = parseBarsGo [] ((i + 1) % 256) false from rfl] at hr
        simp [parseBarsGo] at hr
      | false =>
        simp only [parseBarsGo] at hr
        by_cases h3 : (split_whitespace line).length < 3
        · rw [if_pos h3] at hr
          simp [parseBarsGo] at hr
        · rw [if_neg h3] at hr
          by_cases h0 :
              (fromStrRadix16 (dropAll0x ((split_whitespace line).getD 0 []))).getD 0 = 0
          · rw [if_pos h0] at hr
            simp [parseBarsGo] at hr
          · rw [if_neg h0] at hr
            rcases List.mem_cons.mp hr with hr | hr
            · subst hr
              simp
            · simp [parseBarsGo] at hr

theorem parseBarsGo_chain (lines : List (List Char)) :
    ∀ (i : Nat) (skip : Bool), i + lines.length ≤ 256 →
      barChainB (parseBarsGo lines i skip) = true := by
  induction lines with
  | nil =>
    intro i skip _
    rfl
  | cons line rest ih =>
    intro i skip hb
    rcases Nat.lt_or_ge (i + 1) 256 with hlt | hge
    · have hmod : (i + 1) % 256 = i + 1 := Nat.mod_eq_of_lt hlt
      have hb' : (i + 1) + rest.length ≤ 256 := by
        simp only [List.length_cons] at hb
        omega
      cases skip with
      | true =>
        rw [show parseBarsGo (line :: rest) i true =
              parseBarsGo rest ((i + 1) % 256) false from rfl, hmod]
        exact ih (i + 1) false hb'
      | false =>
        simp only [parseBarsGo, hmod, Bool.false_eq_true, if_false]
        by_cases h3 : (split_whitespace line).length < 3
        · rw [if_pos h3]
          exact ih (i + 1) false hb'
        · rw [if_neg h3]
          by_cases h0 :
              (fromStrRadix16 (dropAll0x ((split_whitespace line).getD 0 []))).getD 0 = 0
          · rw [if_pos h0]
            exact ih (i + 1) false hb'
          · rw [if_neg h0]
            cases htail : parseBarsGo rest (i + 1)
                (((fromStrRadix16 (dropAll0x ((split_whitespace line).getD 2 []))).getD 0).testBit 2) with
            | nil => rfl
            | cons t0 ts =>
              have ht0 : t0 ∈ parseBarsGo rest (i + 1)
                  (((fromStrRadix16 (dropAll0x ((split_whitespace line).getD 2 []))).getD 0).testBit 2) := by
                rw [htail]
                exact List.mem_cons_self _ _
              have hlb := parseBarsGo_index_lb rest (i + 1) _ hb' t0 ht0
              have hchain : barChainB (t0 :: ts) = true := by
                rw [← htail]
                exact ih (i + 1) _ hb'
              simp only [barChainB, hchain, Bool.and_true]
              unfold barPairOk
              by_cases h64 :
                  ((fromStrRadix16 (dropAll0x ((split_whitespace line).getD 2 []))).getD 0).testBit 2
              · simp only [h64, if_true] at hlb ⊢
                simp at hlb ⊢
                omega
              · simp only [h64] at hlb ⊢
                simp at hlb ⊢
                omega
    · have hlen : rest.length = 0 := by
        simp only [List.length_cons] at hb
        omega
      have hnil : rest = [] := List.length_eq_zero.mp hlen
      subst hnil
      cases skip with
      | true => rfl
      | false =>
        simp only [parseBarsGo, Bool.false_eq_true, if_false]
        by_cases h3 : (split_whitespace line).length < 3
        · rw [if_pos h3]
          rfl
        · rw [if_neg h3]
          by_cases h0 :
              (fromStrRadix16 (dropAll0x ((split_whitespace line).getD 0 []))).getD 0 = 0
          · rw [if_pos h0]
            rfl
          · rw [if_neg h0]
            rfl

/-- C6 (amended): for every resource-file content of at most 256 lines, the
emitted BAR indices are strictly increasing and a 64-bit record is followed
by an index at least two larger.  (Beyond 256 lines the `u8` running index
wraps around and the property fails; see the counterexample.) -/
theorem parse_bars_index_monotone (content : String)
    (h : (rustLines content).length ≤ 256) :
    barChainB (parse_bars content) = true :=
  parseBarsGo_chain (rustLines content) 0 false (by omega)

/-- Witness for C6 on the resource file of the source's own unit test. -/
theorem parse_bars_index_monotone_witness :
    (rustLines "0x00000000de000000 0x00000000deffffff 0x0040200c\n0x0000000000000000 0x0000000000000000 0x00000000\n0x00000000d0000000 0x00000000d1ffffff 0x0014220c\n0x0000000000000000 0x0000000000000000 0x00000000\n0x000000000000e000 0x000000000000e07f 0x00040101\n0x0000000000000000 0x0000000000000000 0x00000000").length ≤ 256 ∧
    barChainB (parse_bars "0x00000000de000000 0x00000000deffffff 0x0040200c\n0x0000000000000000 0x0000000000000000 0x00000000\n0x00000000d0000000 0x00000000d1ffffff 0x0014220c\n0x0000000000000000 0x0000000000000000 0x00000000\n0x000000000000e000 0x000000000000e07f 0x00040101\n0x0000000000000000 0x0000000000000000 0x00000000") = true :=
  ⟨by decide, parse_bars_index_monotone _ (by decide)⟩

set_option maxRecDepth 10000 in
/-- C6 counterexample: on a 257-line resource file of valid one-byte BARs the
`u8` BAR index wraps from 255 back to 0, so the emitted indices are not
strictly increasing and the claim fails as stated (over all contents). -/
theorem parse_bars_index_wrap_counterexample :
    barChainB (parse_bars (String.intercalate "\n" (List.replicate 257 "0x1 0x1 0x0"))) = false := by
  decide

/-! ## C10: byte truncation -/

/-- C10 (amended): whenever the truncation limit is at or beyond the
string's byte length, or falls on a UTF-8 character boundary, `truncate`
returns (without panicking) a prefix of at most `max_len` bytes.  When the
limit falls strictly inside a multi-byte character the Rust byte slice
`&s[..max_len]` panics, modelled by the `none` result (see the
counterexample). -/
theorem truncate_no_panic (s : List Nat) (max_len : Nat)
    (h : s.length ≤ max_len ∨ isCharBoundary s max_len = true) :
    ∃ t, truncate s max_len = some t ∧ t.length ≤ max_len ∧ t <+: s := by
  unfold truncate
  by_cases hle : s.length ≤ max_len
  · rw [if_pos hle]
    exact ⟨s, rfl, hle, List.prefix_refl s⟩
  · rcases h with h | h
    · exact absurd h hle
    · rw [if_neg hle, if_pos h]
      refine ⟨s.take max_len, rfl, ?_, List.take_prefix _ _⟩
      simp [List.length_take]

/-- Witness for C10 on a short ASCII byte string. -/
theorem truncate_no_panic_witness :
    ∃ t, truncate [104, 105] 120 = some t ∧ t.length ≤ 120 ∧ t <+: [104, 105] :=
  truncate_no_panic [104, 105] 120 (Or.inl (by decide))

set_option maxRecDepth 10000 in
/-- C10 counterexample: 119 ASCII bytes followed by the three-byte character
`€` (`e2 82 ac`).  Byte 120 is the continuation byte `0x82`, not a character
boundary, so `&s[..120]` panics: `truncate` does not return for every input,
refuting the claim as stated. -/
theorem truncate_panics_mid_char :
    truncate (List.replicate 119 97 ++ [226, 130, 172]) 120 = none := by decide

/-! ## C9: requires-reboot law -/

theorem create_plan_reboot (device : String) (sopt : Option String)
    (readPciId : String → Except String String) (readDriverLink : String → Option String)
    (ts : Int) (plan : RemediationPlan)
    (h : create_plan device sopt readPciId readDriverLink ts = .ok plan) :
    (plan.requires_reboot = true ↔
      (plan.strategy = .PciStub ∨ plan.strategy = .VfioPci ∨ plan.strategy = .DualNullDriver)) := by
  unfold create_plan at h
  cases hS : parse_strategy sopt with
  | error e =>
    rw [hS] at h
    simp [Bind.bind, Except.bind] at h
  | ok st =>
    rw [hS] at h
    cases hP : readPciId device with
    | error e =>
      rw [hP] at h
      simp [Bind.bind, Except.bind] at h
    | ok pci =>
      rw [hP] at h
      simp only [Bind.bind, Except.bind] at h
      cases st <;>
        (obtain rfl : _ = plan := Except.ok.inj h) <;> simp

theorem collectPlans_mem (f : String → Except String RemediationPlan) :
    ∀ (ds : List String) (ps : List RemediationPlan),
      collectPlans f ds = .ok ps → ∀ p ∈ ps, ∃ d ∈ ds, f d = .ok p := by
  intro ds
  induction ds with
  | nil =>
    intro ps h p hp
    obtain rfl : [] = ps := Except.ok.inj h
    simp at hp
  | cons d rest ih =>
    intro ps h p hp
    unfold collectPlans at h
    cases hf : f d with
    | error e =>
      rw [hf] at h
      simp [Bind.bind, Except.bind] at h
    | ok p0 =>
      rw [hf] at h
      cases hrec : collectPlans f rest with
      | error e =>
        rw [hrec] at h
        simp [Bind.bind, Except.bind] at h
      | ok tail =>
        rw [hrec] at h
        simp only [Bind.bind, Except.bind, pure, Except.pure] at h
        obtain rfl : p0 :: tail = ps := Except.ok.inj h
        rcases List.mem_cons.mp hp with hp | hp
        · exact ⟨d, List.mem_cons_self _ _, hp ▸ hf⟩
        · obtain ⟨d', hd', hfd'⟩ := ih tail hrec p hp
          exact ⟨d', List.mem_cons.mpr (Or.inr hd'), hfd'⟩

/-- C9: every plan from `create_plan` has `requires_reboot = true` exactly
for the kernel-argument strategies (PciStub, VfioPci, DualNullDriver), and
every multi-device plan from `create_multi_plan`, together with each of its
sub-plans, satisfies the same law. -/
theorem strategy_requires_reboot_law :
    (∀ (device : String) (sopt : Option String)
        (readPciId : String → Except String String) (readDriverLink : String → Option String)
        (ts : Int) (plan : RemediationPlan),
      create_plan device sopt readPciId readDriverLink ts = .ok plan →
      (plan.requires_reboot = true ↔
        (plan.strategy = .PciStub ∨ plan.strategy = .VfioPci ∨ plan.strategy = .DualNullDriver))) ∧
    (∀ (devices : List String) (sopt : Option String)
        (readPciId : String → Except String String) (readDriverLink : String → Option String)
        (ts : Int) (st : RemediationStrategy) (multi : MultiDevicePlan),
      parse_strategy sopt = .ok st →
      create_multi_plan devices sopt readPciId readDriverLink ts = .ok multi →
      ((multi.requires_reboot = true ↔
          (st = .PciStub ∨ st = .VfioPci ∨ st = .DualNullDriver)) ∧
        ∀ p ∈ multi.plans,
          (p.requires_reboot = true ↔
            (p.strategy = .PciStub ∨ p.strategy = .VfioPci ∨ p.strategy = .DualNullDriver)))) := by
  constructor
  · exact fun device sopt readPciId readDriverLink ts plan h =>
      create_plan_reboot device sopt readPciId readDriverLink ts plan h
  · intro devices sopt readPciId readDriverLink ts st multi hS h
    unfold create_multi_plan at h
    rw [hS] at h
    simp only [Bind.bind, Except.bind] at h
    cases hIds : collectDeviceIds readPciId devices with
    | error e =>
      rw [hIds] at h
      simp at h
    | ok device_ids =>
      rw [hIds] at h
      cases st with
      | PciStub =>
        simp only [pure, Except.pure] at h
        obtain rfl : _ = multi := Except.ok.inj h
        refine ⟨by simp [RemediationStrategy.requires_reboot], ?_⟩
        intro p hp
        rcases List.mem_singleton.mp hp with rfl
        simp [create_combined_kargs_plan]
      | VfioPci =>
        simp only [pure, Except.pure] at h
        obtain rfl : _ = multi := Except.ok.inj h
        refine ⟨by simp [RemediationStrategy.requires_reboot], ?_⟩
        intro p hp
        rcases List.mem_singleton.mp hp with rfl
        simp [create_combined_kargs_plan]
      | DualNullDriver =>
        simp only [pure, Except.pure] at h
        obtain rfl : _ = multi := Except.ok.inj h
        refine ⟨by simp [RemediationStrategy.requires_reboot], ?_⟩
        intro p hp
        rcases List.mem_singleton.mp hp with rfl
        simp [create_combined_kargs_plan]
      | AcpiPowerOff =>
        cases hC : collectPlans
            (fun dev => create_plan dev (strategy_name .AcpiPowerOff) readPciId readDriverLink ts)
            devices with
        | error e =>
          rw [hC] at h
          simp at h
        | ok plans =>
          rw [hC] at h
          simp only [pure, Except.pure] at h
          obtain rfl : _ = multi := Except.ok.inj h
          refine ⟨by simp [RemediationStrategy.requires_reboot], ?_⟩
          intro p hp
          obtain ⟨d, _, hfd⟩ := collectPlans_mem _ devices plans hC p hp
          exact create_plan_reboot d _ readPciId readDriverLink ts p hfd
      | SysfsDisable =>
        cases hC : collectPlans
            (fun dev => create_plan dev (strategy_name .SysfsDisable) readPciId readDriverLink ts)
            devices with
        | error e =>
          rw [hC] at h
          simp at h
        | ok plans =>
          rw [hC] at h
          simp only [pure, Except.pure] at h
          obtain rfl : _ = multi := Except.ok.inj h
          refine ⟨by simp [RemediationStrategy.requires_reboot], ?_⟩
          intro p hp
          obtain ⟨d, _, hfd⟩ := collectPlans_mem _ devices plans hC p hp
          exact create_plan_reboot d _ readPciId readDriverLink ts p hfd
      | DriverUnbind =>
        cases hC : collectPlans
            (fun dev => create_plan dev (strategy_name .DriverUnbind) readPciId readDriverLink ts)
            devices with
        | error e =>
          rw [hC] at h
          simp at h
        | ok plans =>
          rw [hC] at h
          simp only [pure, Except.pure] at h
          obtain rfl : _ = multi := Except.ok.inj h
          refine ⟨by simp [RemediationStrategy.requires_reboot], ?_⟩
          intro p hp
          obtain ⟨d, _, hfd⟩ := collectPlans_mem _ devices plans hC p hp
          exact create_plan_reboot d _ readPciId readDriverLink ts p hfd

/-- Witness for C9: a concrete single-device pci-stub plan and a concrete
two-device multi plan. -/
theorem strategy_requires_reboot_law_witness :
    (∃ plan, create_plan "01:00.0" (some "pci-stub") (fun _ => .ok "10de:13b0") (fun _ => none) 0 =
        .ok plan ∧
      (plan.requires_reboot = true ↔
        (plan.strategy = .PciStub ∨ plan.strategy = .VfioPci ∨ plan.strategy = .DualNullDriver))) ∧
    (∃ multi, create_multi_plan ["01:00.0", "01:00.1"] (some "disable")
        (fun _ => .ok "10de:13b0") (fun _ => none) 0 = .ok multi ∧
      (multi.requires_reboot = true ↔
        (RemediationStrategy.SysfsDisable = .PciStub ∨ RemediationStrategy.SysfsDisable = .VfioPci ∨
          RemediationStrategy.SysfsDisable = .DualNullDriver))) :=
  by
  constructor
  · refine ⟨_, rfl, ?_⟩
    apply strategy_requires_reboot_law.1 "01:00.0" (some "pci-stub")
      (fun _ => .ok "10de:13b0") (fun _ => none) 0
    rfl
  · refine ⟨_, rfl, ?_⟩
    refine (strategy_requires_reboot_law.2 ["01:00.0", "01:00.1"] (some "disable")
      (fun _ => .ok "10de:13b0") (fun _ => none) 0 .SysfsDisable _ rfl ?_).1
    rfl

/-! ## Replacement lemmas for the kargs inverse law -/

theorem startsWithCL_self_append (pat l : List Char) :
    startsWithCL pat (pat ++ l) = true := by
  induction pat with
  | nil => rfl
  | cons p ps ih => simp [startsWithCL, ih]

theorem startsWithCL_extend {pat xs : List Char} (h : startsWithCL pat xs = true)
    (ys : List Char) : startsWithCL pat (xs ++ ys) = true := by
  induction pat generalizing xs with
  | nil => rfl
  | cons p ps ih =>
    cases xs with
    | nil => simp [startsWithCL] at h
    | cons x xs' =>
      simp only [startsWithCL, Bool.and_eq_true, decide_eq_true_eq] at h ⊢
      exact ⟨h.1, ih h.2⟩

theorem startsWithCL_append_elim {pat : List Char} {y : Char} (hy : y ∉ pat) :
    ∀ {xs ys : List Char}, startsWithCL pat (xs ++ y :: ys) = true →
      startsWithCL pat xs = true ∧ pat.length ≤ xs.length := by
  induction pat with
  | nil =>
    intro xs ys _
    exact ⟨rfl, Nat.zero_le _⟩
  | cons p ps ih =>
    intro xs ys h
    cases xs with
    | nil =>
      simp only [List.nil_append, startsWithCL, Bool.and_eq_true, decide_eq_true_eq] at h
      exact absurd (h.1 ▸ List.mem_cons_self p ps) hy
    | cons x xs' =>
      simp only [List.cons_append, startsWithCL, Bool.and_eq_true, decide_eq_true_eq] at h ⊢
      have hy' : y ∉ ps := fun hmem => hy (List.mem_cons.mpr (Or.inr hmem))
      obtain ⟨h1, h2⟩ := ih hy' h.2
      exact ⟨⟨h.1, h1⟩, by simp; omega⟩

theorem replaceAll_no_occur {pat rep l : List Char} (hp : pat ≠ [])
    (h : containsSub l pat = false) : replaceAll pat rep l = l := by
  induction l with
  | nil => simp [replaceAll]
  | cons c cs ih =>
    unfold containsSub at h
    rw [Bool.or_eq_false_iff] at h
    obtain ⟨hsw, hrest⟩ := h
    rw [replaceAll.eq_2]
    rw [dif_neg (by simp [hsw])]
    rw [ih hrest]

theorem replaceAll_head {pat rep l : List Char} (hp : pat ≠ []) :
    replaceAll pat rep (pat ++ l) = rep ++ replaceAll pat rep l := by
  cases pat with
  | nil => exact absurd rfl hp
  | cons p ps =>
    have hcons : (p :: ps) ++ l = p :: (ps ++ l) := rfl
    have hsw : startsWithCL (p :: ps) (p :: (ps ++ l)) = true := by
      rw [← hcons]
      exact startsWithCL_self_append _ _
    rw [hcons, replaceAll.eq_2, dif_pos ⟨hp, hsw⟩]
    congr 1
    rw [← hcons, List.drop_left]

theorem replaceAll_sep {pat rep : List Char} (hp : pat ≠ []) (hsp : (' ' : Char) ∉ pat) :
    ∀ (xs ys : List Char),
      replaceAll pat rep (xs ++ ' ' :: ys) =
        replaceAll pat rep xs ++ ' ' :: replaceAll pat rep ys := by
  have key : ∀ (n : Nat) (xs : List Char), xs.length ≤ n → ∀ (ys : List Char),
      replaceAll pat rep (xs ++ ' ' :: ys) =
        replaceAll pat rep xs ++ ' ' :: replaceAll pat rep ys := by
    intro n
    induction n with
    | zero =>
      intro xs hxs ys
      have hnil : xs = [] := List.length_eq_zero.mp (Nat.le_zero.mp hxs)
      subst hnil
      have hsw : startsWithCL pat (' ' :: ys) = false := by
        cases pat with
        | nil => exact absurd rfl hp
        | cons p ps =>
          simp only [startsWithCL, Bool.and_eq_false_iff]
          left
          simp only [decide_eq_false_iff_not]
          intro hpe
          exact hsp (hpe ▸ List.mem_cons_self p ps)
      rw [List.nil_append, replaceAll.eq_2, dif_neg (by simp [hsw]), replaceAll.eq_1]
      rfl
    | succ n ihn =>
      intro xs hxs ys
      cases xs with
      | nil =>
        have hsw : startsWithCL pat (' ' :: ys) = false := by
          cases pat with
          | nil => exact absurd rfl hp
          | cons p ps =>
            simp only [startsWithCL, Bool.and_eq_false_iff]
            left
            simp only [decide_eq_false_iff_not]
            intro hpe
            exact hsp (hpe ▸ List.mem_cons_self p ps)
        rw [List.nil_append, replaceAll.eq_2, dif_neg (by simp [hsw]), replaceAll.eq_1]
        rfl
      | cons c cs =>
        have hcons : (c :: cs) ++ ' ' :: ys = c :: (cs ++ ' ' :: ys) := rfl
        by_cases hm : startsWithCL pat ((c :: cs) ++ ' ' :: ys) = true
        · obtain ⟨hsw_xs, hlen_le⟩ := startsWithCL_append_elim hsp hm
          rw [hcons, replaceAll.eq_2, dif_pos ⟨hp, hcons ▸ hm⟩]
          rw [replaceAll.eq_2, dif_pos ⟨hp, hsw_xs⟩]
          rw [← hcons, List.drop_append_of_le_length hlen_le]
          have hplen : 1 ≤ pat.length := by
            cases pat with
            | nil => exact absurd rfl hp
            | cons p ps => simp
          have hlen' : ((c :: cs).drop pat.length).length ≤ n := by
            simp only [List.length_drop, List.length_cons]
            simp only [List.length_cons] at hxs
            omega
          rw [ihn _ hlen' ys]
          simp [List.append_assoc]
        · have hsw_xs : startsWithCL pat (c :: cs) = false := by
            cases hx : startsWithCL pat (c :: cs) with
            | false => rfl
            | true => exact absurd (startsWithCL_extend hx (' ' :: ys)) (by simpa using hm)
          rw [hcons, replaceAll.eq_2, dif_neg (fun hcon => hm (by rw [hcons]; exact hcon.2))]
          rw [replaceAll.eq_2, dif_neg (by simp [hsw_xs])]
          have hlen' : cs.length ≤ n := by
            simp only [List.length_cons] at hxs
            omega
          rw [ihn _ hlen' ys]
          rfl
  exact fun xs ys => key xs.length xs le_rfl ys

theorem hasDD_of_no_dash {l : List Char} (h : ('-' : Char) ∉ l) : hasDD l = false := by
  induction l with
  | nil => rfl
  | cons c cs ih =>
    have hc : c ≠ '-' := fun hc => h (hc ▸ List.mem_cons_self c cs)
    have hcs : ('-' : Char) ∉ cs := fun hmem => h (List.mem_cons.mpr (Or.inr hmem))
    cases cs with
    | nil => rfl
    | cons d ds =>
      have hcb : (c == '-') = false := by
        simp only [beq_eq_false_iff_ne, ne_eq]
        exact hc
      simp only [hasDD, hcb, Bool.false_and, Bool.false_or]
      exact ih hcs

theorem hasDD_append {xs ys : List Char} (h1 : hasDD xs = false) (h2 : ('-' : Char) ∉ ys) :
    hasDD (xs ++ ys) = false := by
  induction xs with
  | nil => exact hasDD_of_no_dash h2
  | cons c cs ih =>
    cases cs with
    | nil =>
      cases ys with
      | nil => rfl
      | cons y ys' =>
        have hy : (y == '-') = false := by
          simp only [beq_eq_false_iff_ne, ne_eq]
          exact fun hy => h2 (hy ▸ List.mem_cons_self y ys')
        simp only [List.cons_append, List.nil_append, hasDD, hy, Bool.and_false, Bool.false_or]
        exact hasDD_of_no_dash h2
    | cons d ds =>
      simp only [hasDD, Bool.or_eq_false_iff] at h1
      simp only [List.cons_append, hasDD, Bool.or_eq_false_iff]
      exact ⟨h1.1, ih h1.2⟩

theorem not_contains_dashdash {l : List Char} (h : hasDD l = false) (p : List Char) :
    containsSub l ('-' :: '-' :: p) = false := by
  induction l with
  | nil => rfl
  | cons c cs ih =>
    have hcs : hasDD cs = false := by
      cases cs with
      | nil => rfl
      | cons d ds =>
        simp only [hasDD, Bool.or_eq_false_iff] at h
        exact h.2
    unfold containsSub
    rw [Bool.or_eq_false_iff]
    refine ⟨?_, ih hcs⟩
    cases cs with
    | nil => simp [startsWithCL]
    | cons d ds =>
      simp only [hasDD, Bool.or_eq_false_iff, Bool.and_eq_false_iff, beq_eq_false_iff_ne,
        ne_eq] at h
      simp only [startsWithCL, Bool.and_eq_false_iff, decide_eq_false_iff_not]
      rcases h.1 with hc | hd
      · left
        exact fun hh => hc hh.symm
      · right
        left
        exact fun hh => hd hh.symm

theorem splitOnceChar_append {c : Char} :
    ∀ {l a b : List Char}, splitOnceChar c l = some (a, b) → a ++ c :: b = l := by
  intro l
  induction l with
  | nil =>
    intro a b h
    simp [splitOnceChar] at h
  | cons x xs ih =>
    intro a b h
    unfold splitOnceChar at h
    by_cases hx : x = c
    · rw [if_pos hx] at h
      have hinj := Option.some.inj h
      have ha : ([] : List Char) = a := congrArg Prod.fst hinj
      have hb : xs = b := congrArg Prod.snd hinj
      subst ha
      subst hb
      simp [hx]
    · rw [if_neg hx] at h
      cases hrec : splitOnceChar c xs with
      | none =>
        rw [hrec] at h
        simp at h
      | some ab =>
        rw [hrec] at h
        obtain ⟨a', b'⟩ := ab
        have := Option.some.inj h
        have ha : x :: a' = a := congrArg Prod.fst this
        have hb : b' = b := congrArg Prod.snd this
        subst ha
        subst hb
        simp only [List.cons_append, List.cons.injEq, true_and]
        exact ih hrec

theorem splitPciId_no_dash {s : String} (h : ('-' : Char) ∉ s.data) :
    ('-' : Char) ∉ (splitPciId s).1.data ∧ ('-' : Char) ∉ (splitPciId s).2.data := by
  unfold splitPciId
  cases hsp : splitOnceChar ':' s.data with
  | none =>
    constructor <;> decide
  | some ab =>
    obtain ⟨a, b⟩ := ab
    have heq := splitOnceChar_append hsp
    constructor
    · intro hmem
      exact h (heq ▸ List.mem_append.mpr (Or.inl hmem))
    · intro hmem
      exact h (heq ▸ List.mem_append.mpr (Or.inr (List.mem_cons.mpr (Or.inr hmem))))

theorem replace_cmd1 (R : List Char) (hR : containsSub R ("--append=".data) = false) :
    replaceAll ("--append=".data) ("--delete=".data)
      ("rpm-ostree kargs".data ++ ' ' :: ("--append=".data ++ R)) =
      "rpm-ostree kargs".data ++ ' ' :: ("--delete=".data ++ R) := by
  rw [replaceAll_sep (by decide) (by decide)]
  rw [replaceAll_no_occur (by decide) (by decide : containsSub ("rpm-ostree kargs".data) ("--append=".data) = false)]
  rw [replaceAll_head (by decide)]
  rw [replaceAll_no_occur (by decide) hR]

theorem replace_cmd2 (R1 R2 : List Char)
    (h1 : containsSub R1 ("--append=".data) = false)
    (h2 : containsSub R2 ("--append=".data) = false) :
    replaceAll ("--append=".data) ("--delete=".data)
      ("rpm-ostree kargs".data ++ ' ' :: ("--append=".data ++
        (R1 ++ ' ' :: ("--append=".data ++ R2)))) =
      "rpm-ostree kargs".data ++ ' ' :: ("--delete=".data ++
        (R1 ++ ' ' :: ("--delete=".data ++ R2))) := by
  rw [replaceAll_sep (by decide) (by decide)]
  rw [replaceAll_no_occur (by decide) (by decide : containsSub ("rpm-ostree kargs".data) ("--append=".data) = false)]
  rw [replaceAll_head (by decide)]
  rw [replaceAll_sep (by decide) (by decide)]
  rw [replaceAll_no_occur (by decide) h1]
  rw [replaceAll_head (by decide)]
  rw [replaceAll_no_occur (by decide) h2]

theorem replace_cmd3 (R1 R2 R3 : List Char)
    (h1 : containsSub R1 ("--append=".data) = false)
    (h2 : containsSub R2 ("--append=".data) = false)
    (h3 : containsSub R3 ("--append=".data) = false) :
    replaceAll ("--append=".data) ("--delete=".data)
      ("rpm-ostree kargs".data ++ ' ' :: ("--append=".data ++
        (R1 ++ ' ' :: ("--append=".data ++
          (R2 ++ ' ' :: ("--append=".data ++ R3)))))) =
      "rpm-ostree kargs".data ++ ' ' :: ("--delete=".data ++
        (R1 ++ ' ' :: ("--delete=".data ++
          (R2 ++ ' ' :: ("--delete=".data ++ R3))))) := by
  rw [replaceAll_sep (by decide) (by decide)]
  rw [replaceAll_no_occur (by decide) (by decide : containsSub ("rpm-ostree kargs".data) ("--append=".data) = false)]
  rw [replaceAll_head (by decide)]
  rw [replaceAll_sep (by decide) (by decide)]
  rw [replaceAll_no_occur (by decide) h1]
  rw [replaceAll_head (by decide)]
  rw [replaceAll_sep (by decide) (by decide)]
  rw [replaceAll_no_occur (by decide) h2]
  rw [replaceAll_head (by decide)]
  rw [replaceAll_no_occur (by decide) h3]

theorem no_occur_append_token {lit : List Char} {tail : List Char}
    (hlit : hasDD lit = false) (htail : ('-' : Char) ∉ tail) :
    containsSub (lit ++ tail) ("--append=".data) = false := by
  have hdd : hasDD (lit ++ tail) = false := hasDD_append hlit htail
  have h := not_contains_dashdash hdd ("append=".data)
  rw [show ("--append=" : String).data = '-' :: '-' :: ("append=".data) from rfl]
  exact h

theorem ids_pair_no_dash {v d : String} (hv : ('-' : Char) ∉ v.data)
    (hd : ('-' : Char) ∉ d.data) : ('-' : Char) ∉ v.data ++ ':' :: d.data := by
  intro hmem
  rcases List.mem_append.mp hmem with hmem | hmem
  · exact hv hmem
  · rcases List.mem_cons.mp hmem with hmem | hmem
    · exact absurd hmem (by decide)
    · exact hd hmem

theorem ids_dup_no_dash {v d : String} (hv : ('-' : Char) ∉ v.data)
    (hd : ('-' : Char) ∉ d.data) :
    ('-' : Char) ∉ v.data ++ ':' :: d.data ++ ',' :: v.data ++ ':' :: d.data := by
  intro hmem
  simp only [List.append_assoc, List.cons_append] at hmem
  rcases List.mem_append.mp hmem with hmem | hmem
  · exact hv hmem
  · rcases List.mem_cons.mp hmem with hmem | hmem
    · exact absurd hmem (by decide)
    · rcases List.mem_append.mp hmem with hmem | hmem
      · exact hd hmem
      · rcases List.mem_cons.mp hmem with hmem | hmem
        · exact absurd hmem (by decide)
        · rcases List.mem_append.mp hmem with hmem | hmem
          · exact hv hmem
          · rcases List.mem_cons.mp hmem with hmem | hmem
            · exact absurd hmem (by decide)
            · exact hd hmem

theorem pcistub_single_replace (v d : String) (hv : ('-' : Char) ∉ v.data)
    (hd : ('-' : Char) ∉ d.data) :
    strReplace ("rpm-ostree kargs --append=pci-stub.ids=" ++ v ++ ":" ++ d)
        "--append=" "--delete=" =
      "rpm-ostree kargs --delete=pci-stub.ids=" ++ v ++ ":" ++ d := by
  apply String.ext
  show replaceAll ("--append=".data) ("--delete=".data)
      (("rpm-ostree kargs --append=pci-stub.ids=" ++ v ++ ":" ++ d) : String).data = _
  rw [show (("rpm-ostree kargs --append=pci-stub.ids=" ++ v ++ ":" ++ d) : String).data =
      "rpm-ostree kargs".data ++ ' ' :: ("--append=".data ++
        ("pci-stub.ids=".data ++ (v.data ++ ':' :: d.data))) from by simp [String.data_append]]
  rw [replace_cmd1 _ (no_occur_append_token (by decide) (ids_pair_no_dash hv hd))]
  simp [String.data_append]

theorem vfio_single_replace (v d : String) (hv : ('-' : Char) ∉ v.data)
    (hd : ('-' : Char) ∉ d.data) :
    strReplace ("rpm-ostree kargs --append=vfio-pci.ids=" ++ v ++ ":" ++ d ++
        " --append=rd.driver.pre=vfio-pci") "--append=" "--delete=" =
      "rpm-ostree kargs --delete=vfio-pci.ids=" ++ v ++ ":" ++ d ++
        " --delete=rd.driver.pre=vfio-pci" := by
  apply String.ext
  show replaceAll ("--append=".data) ("--delete=".data)
      (("rpm-ostree kargs --append=vfio-pci.ids=" ++ v ++ ":" ++ d ++
        " --append=rd.driver.pre=vfio-pci") : String).data = _
  rw [show (("rpm-ostree kargs --append=vfio-pci.ids=" ++ v ++ ":" ++ d ++
        " --append=rd.driver.pre=vfio-pci") : String).data =
      "rpm-ostree kargs".data ++ ' ' :: ("--append=".data ++
        (("vfio-pci.ids=".data ++ (v.data ++ ':' :: d.data)) ++ ' ' :: ("--append=".data ++
          "rd.driver.pre=vfio-pci".data))) from by simp [String.data_append]]
  rw [replace_cmd2 _ _
    (no_occur_append_token (by decide) (ids_pair_no_dash hv hd))
    (by decide)]
  simp [String.data_append]

theorem dual_single_replace (v d : String) (hv : ('-' : Char) ∉ v.data)
    (hd : ('-' : Char) ∉ d.data) :
    strReplace ("rpm-ostree kargs --append=pci-stub.ids=" ++ v ++ ":" ++ d ++ "," ++
        v ++ ":" ++ d ++ " --append=vfio-pci.ids=" ++ v ++ ":" ++ d ++ "," ++ v ++ ":" ++ d ++
        " --append=rd.driver.pre=vfio-pci") "--append=" "--delete=" =
      "rpm-ostree kargs --delete=pci-stub.ids=" ++ v ++ ":" ++ d ++ "," ++
        v ++ ":" ++ d ++ " --delete=vfio-pci.ids=" ++ v ++ ":" ++ d ++ "," ++ v ++ ":" ++ d ++
        " --delete=rd.driver.pre=vfio-pci" := by
  apply String.ext
  show replaceAll ("--append=".data) ("--delete=".data)
      (("rpm-ostree kargs --append=pci-stub.ids=" ++ v ++ ":" ++ d ++ "," ++
        v ++ ":" ++ d ++ " --append=vfio-pci.ids=" ++ v ++ ":" ++ d ++ "," ++ v ++ ":" ++ d ++
        " --append=rd.driver.pre=vfio-pci") : String).data = _
  rw [show (("rpm-ostree kargs --append=pci-stub.ids=" ++ v ++ ":" ++ d ++ "," ++
        v ++ ":" ++ d ++ " --append=vfio-pci.ids=" ++ v ++ ":" ++ d ++ "," ++ v ++ ":" ++ d ++
        " --append=rd.driver.pre=vfio-pci") : String).data =
      "rpm-ostree kargs".data ++ ' ' :: ("--append=".data ++
        (("pci-stub.ids=".data ++ (v.data ++ ':' :: d.data ++ ',' :: v.data ++ ':' :: d.data)) ++
          ' ' :: ("--append=".data ++
            (("vfio-pci.ids=".data ++ (v.data ++ ':' :: d.data ++ ',' :: v.data ++ ':' :: d.data)) ++
              ' ' :: ("--append=".data ++ "rd.driver.pre=vfio-pci".data))))) from by
    simp [String.data_append]]
  rw [replace_cmd3 _ _ _
    (no_occur_append_token (by decide) (ids_dup_no_dash hv hd))
    (no_occur_append_token (by decide) (ids_dup_no_dash hv hd))
    (by decide)]
  simp [String.data_append]

theorem pcistub_combined_replace (c : String) (hc : ('-' : Char) ∉ c.data) :
    strReplace ("rpm-ostree kargs " ++ ("--append=pci-stub.ids=" ++ c))
        "--append=" "--delete=" =
      "rpm-ostree kargs " ++ ("--delete=pci-stub.ids=" ++ c) := by
  apply String.ext
  show replaceAll ("--append=".data) ("--delete=".data)
      (("rpm-ostree kargs " ++ ("--append=pci-stub.ids=" ++ c)) : String).data = _
  rw [show (("rpm-ostree kargs " ++ ("--append=pci-stub.ids=" ++ c)) : String).data =
      "rpm-ostree kargs".data ++ ' ' :: ("--append=".data ++
        ("pci-stub.ids=".data ++ c.data)) from by simp [String.data_append]]
  rw [replace_cmd1 _ (no_occur_append_token (by decide) hc)]
  simp [String.data_append]

theorem vfio_combined_replace (c : String) (hc : ('-' : Char) ∉ c.data) :
    strReplace ("rpm-ostree kargs " ++ (("--append=vfio-pci.ids=" ++ c) ++ " " ++
        "--append=rd.driver.pre=vfio-pci")) "--append=" "--delete=" =
      "rpm-ostree kargs " ++ (("--delete=vfio-pci.ids=" ++ c) ++ " " ++
        "--delete=rd.driver.pre=vfio-pci") := by
  apply String.ext
  show replaceAll ("--append=".data) ("--delete=".data)
      (("rpm-ostree kargs " ++ (("--append=vfio-pci.ids=" ++ c) ++ " " ++
        "--append=rd.driver.pre=vfio-pci")) : String).data = _
  rw [show (("rpm-ostree kargs " ++ (("--append=vfio-pci.ids=" ++ c) ++ " " ++
        "--append=rd.driver.pre=vfio-pci")) : String).data =
      "rpm-ostree kargs".data ++ ' ' :: ("--append=".data ++
        (("vfio-pci.ids=".data ++ c.data) ++ ' ' :: ("--append=".data ++
          "rd.driver.pre=vfio-pci".data))) from by simp [String.data_append]]
  rw [replace_cmd2 _ _ (no_occur_append_token (by decide) hc) (by decide)]
  simp [String.data_append]

theorem dual_combined_replace (c : String) (hc : ('-' : Char) ∉ c.data) :
    strReplace ("rpm-ostree kargs " ++ (("--append=pci-stub.ids=" ++ c) ++ " " ++
        (("--append=vfio-pci.ids=" ++ c) ++ " " ++ "--append=rd.driver.pre=vfio-pci")))
        "--append=" "--delete=" =
      "rpm-ostree kargs " ++ (("--delete=pci-stub.ids=" ++ c) ++ " " ++
        (("--delete=vfio-pci.ids=" ++ c) ++ " " ++ "--delete=rd.driver.pre=vfio-pci")) := by
  apply String.ext
  show replaceAll ("--append=".data) ("--delete=".data)
      (("rpm-ostree kargs " ++ (("--append=pci-stub.ids=" ++ c) ++ " " ++
        (("--append=vfio-pci.ids=" ++ c) ++ " " ++ "--append=rd.driver.pre=vfio-pci"))) : String).data = _
  rw [show (("rpm-ostree kargs " ++ (("--append=pci-stub.ids=" ++ c) ++ " " ++
        (("--append=vfio-pci.ids=" ++ c) ++ " " ++ "--append=rd.driver.pre=vfio-pci"))) : String).data =
      "rpm-ostree kargs".data ++ ' ' :: ("--append=".data ++
        (("pci-stub.ids=".data ++ c.data) ++ ' ' :: ("--append=".data ++
          (("vfio-pci.ids=".data ++ c.data) ++ ' ' :: ("--append=".data ++
            "rd.driver.pre=vfio-pci".data))))) from by simp [String.data_append]]
  rw [replace_cmd3 _ _ _
    (no_occur_append_token (by decide) hc)
    (no_occur_append_token (by decide) hc)
    (by decide)]
  simp [String.data_append]

theorem joinWith_comma_no_dash :
    ∀ {ids : List String}, (∀ x ∈ ids, ('-' : Char) ∉ x.data) →
      ('-' : Char) ∉ (joinWith "," ids).data := by
  intro ids
  induction ids with
  | nil =>
    intro _
    decide
  | cons x rest ih =>
    intro h
    cases rest with
    | nil => exact h x (List.mem_cons_self _ _)
    | cons y rest' =>
      intro hmem
      have hj := ih (fun z hz => h z (List.mem_cons.mpr (Or.inr hz)))
      simp only [joinWith, String.data_append, List.mem_append] at hmem
      rcases hmem with (hmem | hmem) | hmem
      · exact h x (List.mem_cons_self _ _) hmem
      · exact absurd hmem (by decide)
      · exact hj hmem

theorem mapped_ids_no_dash {device_ids : List (String × String × String)}
    (h : ∀ x ∈ device_ids, ('-' : Char) ∉ x.2.1.data ∧ ('-' : Char) ∉ x.2.2.data) :
    ∀ s ∈ device_ids.map (fun x => x.2.1 ++ ":" ++ x.2.2), ('-' : Char) ∉ s.data := by
  intro s hs
  obtain ⟨x, hx, rfl⟩ := List.mem_map.mp hs
  intro hmem
  simp only [String.data_append, List.mem_append] at hmem
  rcases hmem with (hmem | hmem) | hmem
  · exact (h x hx).1 hmem
  · exact absurd hmem (by decide)
  · exact (h x hx).2 hmem

/-! ## C1: inverse law for kernel-argument plans -/

/-- C1: for every generated kernel-argument plan — single-device via
`create_plan` with strategy PciStub, VfioPci or DualNullDriver, and
multi-device via `create_combined_kargs_plan` — replacing every occurrence
of `--append=` in the apply step's command with `--delete=` yields exactly
the undo step's command.  The hypotheses state that the device ids read
from sysfs contain no `-` character (they are 4-hex-digit pairs). -/
theorem inverse_law_kargs :
    (∀ (device : String) (sopt : Option String)
        (readPciId : String → Except String String) (readDriverLink : String → Option String)
        (ts : Int) (plan : RemediationPlan),
      create_plan device sopt readPciId readDriverLink ts = .ok plan →
      (plan.strategy = .PciStub ∨ plan.strategy = .VfioPci ∨ plan.strategy = .DualNullDriver) →
      (∀ r, readPciId device = .ok r → ('-' : Char) ∉ r.data) →
      plan.steps.map (fun st => strReplace st.command "--append=" "--delete=") =
        plan.undo_steps.map (·.command)) ∧
    (∀ (plan_id : String) (device_ids : List (String × String × String))
        (st : RemediationStrategy),
      (st = .PciStub ∨ st = .VfioPci ∨ st = .DualNullDriver) →
      (∀ x ∈ device_ids, ('-' : Char) ∉ x.2.1.data ∧ ('-' : Char) ∉ x.2.2.data) →
      (create_combined_kargs_plan plan_id device_ids st).steps.map
          (fun stp => strReplace stp.command "--append=" "--delete=") =
        (create_combined_kargs_plan plan_id device_ids st).undo_steps.map (·.command)) := by
  constructor
  · intro device sopt readPciId readDriverLink ts plan h hst hdash
    unfold create_plan at h
    cases hS : parse_strategy sopt with
    | error e =>
      rw [hS] at h
      simp [Bind.bind, Except.bind] at h
    | ok st =>
      rw [hS] at h
      cases hP : readPciId device with
      | error e =>
        rw [hP] at h
        simp [Bind.bind, Except.bind] at h
      | ok pci =>
        rw [hP] at h
        simp only [Bind.bind, Except.bind] at h
        have hpci := hdash pci hP
        obtain ⟨hv, hd⟩ := splitPciId_no_dash hpci
        cases st with
        | PciStub =>
          obtain rfl : _ = plan := Except.ok.inj h
          simp only [List.map_cons, List.map_nil]
          rw [pcistub_single_replace _ _ hv hd]
        | VfioPci =>
          obtain rfl : _ = plan := Except.ok.inj h
          simp only [List.map_cons, List.map_nil]
          rw [vfio_single_replace _ _ hv hd]
        | DualNullDriver =>
          obtain rfl : _ = plan := Except.ok.inj h
          simp only [List.map_cons, List.map_nil]
          rw [dual_single_replace _ _ hv hd]
        | AcpiPowerOff =>
          obtain rfl : _ = plan := Except.ok.inj h
          simp at hst
        | SysfsDisable =>
          obtain rfl : _ = plan := Except.ok.inj h
          simp at hst
        | DriverUnbind =>
          obtain rfl : _ = plan := Except.ok.inj h
          simp at hst
  · intro plan_id device_ids st hst hdash
    have hc : ('-' : Char) ∉
        (joinWith "," (device_ids.map (fun x => x.2.1 ++ ":" ++ x.2.2))).data :=
      joinWith_comma_no_dash (mapped_ids_no_dash hdash)
    rcases hst with rfl | rfl | rfl
    · simp only [create_combined_kargs_plan, joinWith, List.map_cons, List.map_nil]
      rw [pcistub_combined_replace _ hc]
    · simp only [create_combined_kargs_plan, joinWith, List.map_cons, List.map_nil]
      rw [vfio_combined_replace _ hc]
    · simp only [create_combined_kargs_plan, joinWith, List.map_cons, List.map_nil]
      rw [dual_combined_replace _ hc]

/-- Witness for C1: a concrete DualNullDriver single-device plan and a
concrete two-device combined PciStub plan. -/
theorem inverse_law_kargs_witness :
    (∃ plan,
      create_plan "01:00.0" (some "dual") (fun _ => .ok "10de:13b0") (fun _ => none) 0 =
        .ok plan ∧
      plan.steps.map (fun st => strReplace st.command "--append=" "--delete=") =
        plan.undo_steps.map (·.command)) ∧
    ((create_combined_kargs_plan "test"
        [("01:00.0", "10de", "13b0"), ("01:00.1", "10de", "0fbc")] .PciStub).steps.map
          (fun stp => strReplace stp.command "--append=" "--delete=") =
      (create_combined_kargs_plan "test"
        [("01:00.0", "10de", "13b0"), ("01:00.1", "10de", "0fbc")] .PciStub).undo_steps.map
          (·.command)) := by
  constructor
  · refine ⟨_, rfl, ?_⟩
    apply inverse_law_kargs.1 "01:00.0" (some "dual") (fun _ => .ok "10de:13b0") (fun _ => none) 0
    · rfl
    · simp
    · intro r hr
      obtain rfl : "10de:13b0" = r := Except.ok.inj hr
      decide
  · apply inverse_law_kargs.2 "test" [("01:00.0", "10de", "13b0"), ("01:00.1", "10de", "0fbc")]
      .PciStub
    · simp
    · intro x hx
      rcases List.mem_cons.mp hx with rfl | hx
      · constructor <;> decide
      · rcases List.mem_singleton.mp hx with rfl
        constructor <;> decide
